import Mathlib

/-!
# SchoolWire notification service: dispatch and delivery ledger

A shallow embedding of `src/app.js` (an Express application held in one file)
and theorems about its dispatch pipeline.

Modelling conventions.

* JavaScript values that arrive as JSON are values of `JVal`. Numbers are the
  integers between `-2^53` and `2^53` (`SafeInt`): the JSON literals without
  fraction or exponent that a double holds exactly, so that equality and
  printing are those of JavaScript; `undefined` stands for an absent property.
* An object is the list of its own properties. Reading a property takes the
  last entry of that key (the rule `JSON.parse` applies to a repeated key);
  writing replaces the entries of the key or appends a new one. The order in
  which JavaScript enumerates keys is not modelled, nothing in the program
  depends on it.
* Two values that come from different JSON documents are strictly equal only
  when they are equal primitives: objects and arrays compare by reference, so
  `strictEq` is false on them.
* `uuid()` and `new Date().toISOString()` are read from an `Oracle`; the state
  counts how many values were drawn.
* A `TypeError` raised by the code is an explicit outcome: `none` for an
  expression, `thrown = true` for a statement sequence, which then stops and
  keeps the state reached so far (Express answers 500). Converting a value to
  a string (in a template literal or as a property key) is such an
  expression: it throws on an object that has an own property `toString`.
-/

namespace SchoolWire

/-! ## JavaScript values -/

/-- The bound `2^53`: every integer up to it in absolute value is a double. -/
def maxSafe : Nat := 9007199254740992

/-- An integer a double holds exactly: between `-2^53` and `2^53`. -/
structure SafeInt where
  val : Int
  inRange : val.natAbs ≤ maxSafe
deriving DecidableEq

/-- The safe integer nearest to an integer: the integer itself when it is in
range, else the bound of its sign (`2^53 + 1` is rounded to `2^53`, as a
double does). -/
def SafeInt.ofInt (i : Int) : SafeInt :=
  if h : i.natAbs ≤ maxSafe then ⟨i, h⟩
  else if 0 ≤ i then ⟨9007199254740992, by decide⟩
  else ⟨-9007199254740992, by decide⟩

instance (n : Nat) : OfNat SafeInt n := ⟨SafeInt.ofInt n⟩

/-- The sum `a + 1` as a double computes it. -/
def SafeInt.succ (a : SafeInt) : SafeInt := SafeInt.ofInt (a.val + 1)

/-- A JSON value, or `undefined`. -/
inductive JVal where
  | undefined : JVal
  | null : JVal
  | bool (b : Bool) : JVal
  | num (n : SafeInt) : JVal
  | str (s : String) : JVal
  | arr (items : List JVal) : JVal
  | obj (props : List (String × JVal)) : JVal

/-- The own properties of an object. -/
abbrev Props := List (String × JVal)

namespace JVal

mutual
/-- Structural equality of values is decidable. -/
def decEq : (a b : JVal) → Decidable (a = b)
  | undefined, undefined => isTrue rfl
  | null, null => isTrue rfl
  | bool a, bool b =>
    if h : a = b then isTrue (by rw [h]) else isFalse (by intro e; cases e; exact h rfl)
  | num a, num b =>
    if h : a = b then isTrue (by rw [h]) else isFalse (by intro e; cases e; exact h rfl)
  | str a, str b =>
    if h : a = b then isTrue (by rw [h]) else isFalse (by intro e; cases e; exact h rfl)
  | arr a, arr b =>
    match decEqItems a b with
    | isTrue h => isTrue (by rw [h])
    | isFalse h => isFalse (by intro e; cases e; exact h rfl)
  | obj a, obj b =>
    match decEqProps a b with
    | isTrue h => isTrue (by rw [h])
    | isFalse h => isFalse (by intro e; cases e; exact h rfl)
  | undefined, null => isFalse (by intro e; cases e)
  | undefined, bool _ => isFalse (by intro e; cases e)
  | undefined, num _ => isFalse (by intro e; cases e)
  | undefined, str _ => isFalse (by intro e; cases e)
  | undefined, arr _ => isFalse (by intro e; cases e)
  | undefined, obj _ => isFalse (by intro e; cases e)
  | null, undefined => isFalse (by intro e; cases e)
  | null, bool _ => isFalse (by intro e; cases e)
  | null, num _ => isFalse (by intro e; cases e)
  | null, str _ => isFalse (by intro e; cases e)
  | null, arr _ => isFalse (by intro e; cases e)
  | null, obj _ => isFalse (by intro e; cases e)
  | bool _, undefined => isFalse (by intro e; cases e)
  | bool _, null => isFalse (by intro e; cases e)
  | bool _, num _ => isFalse (by intro e; cases e)
  | bool _, str _ => isFalse (by intro e; cases e)
  | bool _, arr _ => isFalse (by intro e; cases e)
  | bool _, obj _ => isFalse (by intro e; cases e)
  | num _, undefined => isFalse (by intro e; cases e)
  | num _, null => isFalse (by intro e; cases e)
  | num _, bool _ => isFalse (by intro e; cases e)
  | num _, str _ => isFalse (by intro e; cases e)
  | num _, arr _ => isFalse (by intro e; cases e)
  | num _, obj _ => isFalse (by intro e; cases e)
  | str _, undefined => isFalse (by intro e; cases e)
  | str _, null => isFalse (by intro e; cases e)
  | str _, bool _ => isFalse (by intro e; cases e)
  | str _, num _ => isFalse (by intro e; cases e)
  | str _, arr _ => isFalse (by intro e; cases e)
  | str _, obj _ => isFalse (by intro e; cases e)
  | arr _, undefined => isFalse (by intro e; cases e)
  | arr _, null => isFalse (by intro e; cases e)
  | arr _, bool _ => isFalse (by intro e; cases e)
  | arr _, num _ => isFalse (by intro e; cases e)
  | arr _, str _ => isFalse (by intro e; cases e)
  | arr _, obj _ => isFalse (by intro e; cases e)
  | obj _, undefined => isFalse (by intro e; cases e)
  | obj _, null => isFalse (by intro e; cases e)
  | obj _, bool _ => isFalse (by intro e; cases e)
  | obj _, num _ => isFalse (by intro e; cases e)
  | obj _, str _ => isFalse (by intro e; cases e)
  | obj _, arr _ => isFalse (by intro e; cases e)
/-- Structural equality of lists of values is decidable. -/
def decEqItems : (a b : List JVal) → Decidable (a = b)
  | [], [] => isTrue rfl
  | [], _ :: _ => isFalse (by intro e; cases e)
  | _ :: _, [] => isFalse (by intro e; cases e)
  | x :: xs, y :: ys =>
    match decEq x y, decEqItems xs ys with
    | isTrue h1, isTrue h2 => isTrue (by rw [h1, h2])
    | isFalse h1, _ => isFalse (by intro e; cases e; exact h1 rfl)
    | _, isFalse h2 => isFalse (by intro e; cases e; exact h2 rfl)
/-- Structural equality of property lists is decidable. -/
def decEqProps : (a b : List (String × JVal)) → Decidable (a = b)
  | [], [] => isTrue rfl
  | [], _ :: _ => isFalse (by intro e; cases e)
  | _ :: _, [] => isFalse (by intro e; cases e)
  | (k, x) :: xs, (l, y) :: ys =>
    if hk : k = l then
      match decEq x y, decEqProps xs ys with
      | isTrue h1, isTrue h2 => isTrue (by rw [hk, h1, h2])
      | isFalse h1, _ => isFalse (by intro e; cases e; exact h1 rfl)
      | _, isFalse h2 => isFalse (by intro e; cases e; exact h2 rfl)
    else isFalse (by intro e; cases e; exact hk rfl)
end

instance : DecidableEq JVal := decEq

instance : Inhabited JVal := ⟨undefined⟩

/-- ToBoolean: `undefined`, `null`, `false`, `0` and `""` are falsy. -/
def truthy : JVal → Bool
  | undefined => false
  | null => false
  | bool b => b
  | num n => n.val != 0
  | str s => s != ""
  | arr _ => true
  | obj _ => true

/-- The test `v == null` that `??` and `?.` apply. -/
def isNullish : JVal → Bool
  | undefined => true
  | null => true
  | _ => false

/-- The operator `===` between values of different JSON documents (and
against literals): equal primitives; objects and arrays are compared by
reference and are never the same object. -/
def strictEq : JVal → JVal → Bool
  | undefined, undefined => true
  | null, null => true
  | bool a, bool b => a == b
  | num a, num b => a == b
  | str a, str b => a == b
  | _, _ => false

/-- The operator `a || b`. -/
def orElse (a b : JVal) : JVal := if truthy a then a else b

/-- The operator `a ?? b`. -/
def coalesce (a b : JVal) : JVal := if isNullish a then b else a

/-- The test whether a property list has an entry of the key `k`. -/
def hasKey : List (String × JVal) → String → Bool
  | [], _ => false
  | (k', _) :: rest, k => k' == k || hasKey rest k

mutual
/-- ToString with the hint string, as a template literal or a computed
property key applies it; `none` is a `TypeError`. An object is printed by the
inherited `Object.prototype.toString` unless it has an own property
`toString`: a JSON value is no function, the inherited `valueOf` returns the
object itself, and the conversion throws. An array is printed by `join`. -/
def toStr : JVal → Option String
  | undefined => some "undefined"
  | null => some "null"
  | bool true => some "true"
  | bool false => some "false"
  | num n => some (toString n.val)
  | str s => some s
  | arr items => joinItems items
  | obj props => if hasKey props "toString" then none else some "[object Object]"
/-- The method `Array.prototype.join` with the separator `,`: `undefined` and
`null` print as the empty string, every other element by ToString. -/
def joinItems : List JVal → Option String
  | [] => some ""
  | x :: rest =>
    match (if isNullish x then some "" else toStr x), joinItems rest with
    | some first, some others => some (first ++ (if rest.isEmpty then "" else ",") ++ others)
    | _, _ => none
end

end JVal

open JVal

/-! ## Objects -/

/-- The own property `k` of a property list: the last entry of that key. -/
def lookup : Props → String → Option JVal
  | [], _ => none
  | (k', v) :: rest, k =>
    match lookup rest k with
    | some w => some w
    | none => if k' = k then some v else none

/-- Reading `o.k` on an object given by its own properties. -/
def getProp (o : Props) (k : String) : JVal := (lookup o k).getD undefined

/-- Writing `o.k = v`: replaces the value of an existing key, else appends. -/
def setProp (o : Props) (k : String) (v : JVal) : Props :=
  if (lookup o k).isSome then o.map (fun p => if p.1 = k then (k, v) else p)
  else o ++ [(k, v)]

/-- Reading the property `k` of any value, for the fixed property names the
program reads (none of them is defined on a built-in prototype): a
`TypeError` (`none`) on `undefined` and `null`, the own property of an object,
`undefined` on every other value. -/
def member (v : JVal) (k : String) : Option JVal :=
  match v with
  | undefined => none
  | null => none
  | obj ps => some (getProp ps k)
  | _ => some undefined

/-- The properties with index keys `i`, `i+1`, ... for the given items. -/
def indexed : Nat → List JVal → Props
  | _, [] => []
  | i, x :: xs => (toString i, x) :: indexed (i + 1) xs

/-- The own enumerable properties an object spread `{...v}` copies. -/
def ownProps : JVal → Props
  | obj ps => ps
  | arr items => indexed 0 items
  | str s => indexed 0 (s.data.map (fun c => str (String.singleton c)))
  | _ => []

/-- Copies the properties of `src` onto `target`, in order (`{...target, ...src}`). -/
def assign (target src : Props) : Props :=
  src.foldl (fun t p => setProp t p.1 p.2) target

/-- The test `v?.[key] === true`. An inherited member is a function, an
object or a number, never the boolean `true`, so only own properties count:
those of an object, and the elements of an array under their index. -/
def memberIsTrue (v : JVal) (key : String) : Bool :=
  match v with
  | obj ps => lookup ps key == some (bool true)
  | arr items => lookup (indexed 0 items) key == some (bool true)
  | _ => false

/-! ## Data model -/

/-- An entry of the constant `templates`. -/
structure Template where
  id : String
  name : String
  sms : String
  voice : String
  emailSubject : String
  emailBody : String
deriving DecidableEq

/-- The constant `templates` of the source. -/
def templates : List Template :=
  [ { id := "snow-day"
      name := "Snow Day – All schools closed."
      sms := "School closed today due to weather. Stay safe."
      voice := "This is the district calling: School is closed today due to weather. Please check email for details."
      emailSubject := "Snow Day – All Schools Closed"
      emailBody := "All schools are closed today. Buses will not run. We will update you with reopening details." },
    { id := "late-start"
      name := "2-Hour Late Start – Bus routes shifted."
      sms := "Two-hour late start today. Buses will run two hours later than usual."
      voice := "This is the district calling: We are on a two-hour late start today. Buses will run two hours later than normal."
      emailSubject := "Two-Hour Late Start"
      emailBody := "We are on a two-hour late start today. School begins two hours later than normal and buses run accordingly." },
    { id := "school-closure"
      name := "School-specific closure: [School Name]."
      sms := "Closure notice for your student's school. Check email for details."
      voice := "This is the district calling about a school-specific closure. Please check your email for school-specific details."
      emailSubject := "School-Specific Closure"
      emailBody := "A school-specific closure is in effect. Please review the attached details for your student's school." } ]

/-- An element of the array `events`. -/
structure Event where
  id : String
  templateId : JVal
  audience : JVal
  overrides : JVal
  scheduledFor : JVal
  createdAt : String
deriving DecidableEq

/-- An element of the array `messageLog` (the `logEntry` of `enqueueMessages`). -/
structure LogEntry where
  id : String
  eventId : String
  recipientId : JVal
  channel : JVal
  providerMessageId : String
  status : JVal
  answered : JVal
  createdAt : String
  updatedAt : String
  content : JVal
deriving DecidableEq

/-- The values `uuid()` and `new Date().toISOString()` return, by call number. -/
structure Oracle where
  uuid : Nat → String
  clock : Nat → String

/-- The module-level state: the map `contacts` (entries in insertion order),
the arrays `events` and `messageLog`, and how many oracle values were drawn. -/
structure State where
  contacts : List (JVal × Props)
  events : List Event
  messageLog : List LogEntry
  uuidCalls : Nat
  clockReads : Nat
deriving DecidableEq

/-- The state when the module has been loaded. -/
def State.init : State :=
  { contacts := [], events := [], messageLog := [], uuidCalls := 0, clockReads := 0 }

/-- The outcome of running statements: the state reached and whether a
`TypeError` stopped them. -/
structure Result where
  state : State
  thrown : Bool
deriving DecidableEq

/-- The method `Array.prototype.forEach` with a callback that may throw. -/
def forEach {α : Type} (f : State → α → Result) : State → List α → Result
  | s, [] => ⟨s, false⟩
  | s, x :: xs =>
    let r := f s x
    if r.thrown then r else forEach f r.state xs

/-! ## Contact directory and audience -/

/-- The method `contacts.get(id)`: keys are compared as `Map` compares them
(SameValueZero, which is `===` on the values a JSON document holds). -/
def mapGet : List (JVal × Props) → JVal → Option Props
  | [], _ => none
  | (k, v) :: rest, id => if strictEq k id then some v else mapGet rest id

/-- The method `contacts.set(id, value)`: an existing key keeps its position. -/
def mapSet : List (JVal × Props) → JVal → Props → List (JVal × Props)
  | [], id, v => [(id, v)]
  | (k, w) :: rest, id, v =>
    if strictEq k id then (k, v) :: rest else (k, w) :: mapSet rest id v

/-- The function `upsertContact`: `none` when reading `contact.id` throws. -/
def upsertContact (O : Oracle) (s : State) (contact : JVal) : Option (State × Props) :=
  match member contact "id" with
  | none => none
  | some cid =>
    let id := if truthy cid then cid else str (O.uuid s.uuidCalls)
    let s1 := if truthy cid then s else { s with uuidCalls := s.uuidCalls + 1 }
    let merged :=
      setProp (assign (assign [] ((mapGet s1.contacts id).getD [])) (ownProps contact)) "id" id
    some ({ s1 with contacts := mapSet s1.contacts id merged }, merged)

/-- The callback of `filterAudience`: `none` when reading a filter field
throws, or when the flag of the filter cannot be converted to a property key
(the optional chain `contact.flags?.[filters.flag]` converts it unless
`contact.flags` is `undefined` or `null`). -/
def audienceMatch (filters : JVal) (contact : Props) : Option Bool :=
  match member filters "school", member filters "grade", member filters "busRoute",
      member filters "flag" with
  | some school, some grade, some busRoute, some flag =>
    if truthy school && !strictEq (getProp contact "school") school then some false
    else if truthy grade && !strictEq (getProp contact "grade") grade then some false
    else if truthy busRoute && !strictEq (getProp contact "busRoute") busRoute then some false
    else if truthy flag then
      if isNullish (getProp contact "flags") then some false
      else
        match toStr flag with
        | none => none
        | some key => some (memberIsTrue (getProp contact "flags") key)
    else some true
  | _, _, _, _ => none

/-- The method `Array.prototype.filter` with a callback that may throw. -/
def filterThrowing {α : Type} (p : α → Option Bool) : List α → Option (List α)
  | [] => some []
  | x :: xs =>
    match p x with
    | none => none
    | some b =>
      match filterThrowing p xs with
      | none => none
      | some ys => some (if b then x :: ys else ys)

/-- The function `filterAudience`; the default `filters = {}` applies to
`undefined` only. -/
def filterAudience (s : State) (filters : JVal) : Option (List Props) :=
  let filters := if filters = undefined then obj [] else filters
  filterThrowing (audienceMatch filters) (s.contacts.map Prod.snd)

/-! ## Content and dispatch -/

/-- The expression `overrides.k || template.k`: `none` when it throws, which is
when `overrides` is `null`, or when the override is falsy and `template` is
`undefined`. -/
def overrideOr (template : Option Template) (overrides : JVal) (k : String)
    (field : Template → String) : Option JVal :=
  match member overrides k with
  | none => none
  | some o =>
    if truthy o then some o
    else
      match template with
      | none => none
      | some t => some (str (field t))

/-- The function `buildContent`; the default `overrides = {}` applies to
`undefined` only, and `template` is `none` when the caller found no template. -/
def buildContent (template : Option Template) (overrides : JVal) (channel : JVal) :
    Option JVal :=
  let overrides := if overrides = undefined then obj [] else overrides
  if strictEq channel (str "sms") then overrideOr template overrides "sms" Template.sms
  else if strictEq channel (str "voice") then
    overrideOr template overrides "voice" Template.voice
  else
    match overrideOr template overrides "emailSubject" Template.emailSubject with
    | none => none
    | some subject =>
      match overrideOr template overrides "emailBody" Template.emailBody with
      | none => none
      | some body => some (obj [("subject", subject), ("body", body)])

/-- The three guards of `enqueueMessages`: `true` when none of them returns,
so that a record is built for the recipient and the channel. -/
def passesGuards (recipient : Props) (channel : JVal) : Bool :=
  let consent := strictEq (getProp recipient "telephoneConsent") (bool true)
  if strictEq channel (str "sms")
      && (!truthy (getProp recipient "phone") || truthy (getProp recipient "optOutSMS")) then
    false
  else if strictEq channel (str "voice")
      && (!truthy (getProp recipient "phone") || !consent) then false
  else if strictEq channel (str "email") && !truthy (getProp recipient "email") then false
  else true

/-- The callback of `channels.forEach` in `enqueueMessages`. The object
literal draws `id`, converts the channel to a string for the template literal
(a `TypeError` when it cannot be converted), draws the second uuid, then
builds the content. -/
def enqueueChannel (O : Oracle) (eventId : String) (template : Option Template)
    (overrides : JVal) (now : String) (recipient : Props) (s : State) (channel : JVal) :
    Result :=
  if passesGuards recipient channel then
    match toStr channel with
    | none => ⟨{ s with uuidCalls := s.uuidCalls + 1 }, true⟩
    | some printed =>
      let s1 := { s with uuidCalls := s.uuidCalls + 2 }
      match buildContent template overrides channel with
      | none => ⟨s1, true⟩
      | some content =>
        let logEntry : LogEntry :=
          { id := O.uuid s.uuidCalls
            eventId := eventId
            recipientId := getProp recipient "id"
            channel := channel
            providerMessageId := printed ++ "-" ++ O.uuid (s.uuidCalls + 1)
            status := str "queued"
            answered := null
            createdAt := now
            updatedAt := now
            content := content }
        ⟨{ s1 with messageLog := s1.messageLog ++ [logEntry] }, false⟩
  else ⟨s, false⟩

/-- The callback of `recipients.forEach` in `enqueueMessages`: calling
`channels.forEach` throws unless `channels` is an array. -/
def enqueueRecipient (O : Oracle) (eventId : String) (channels : JVal)
    (template : Option Template) (overrides : JVal) (now : String) (s : State)
    (recipient : Props) : Result :=
  match channels with
  | arr items => forEach (enqueueChannel O eventId template overrides now recipient) s items
  | _ => ⟨s, true⟩

/-- The function `enqueueMessages`. -/
def enqueueMessages (O : Oracle) (s : State) (eventId : String) (recipients : List Props)
    (channels : JVal) (template : Option Template) (overrides : JVal) : Result :=
  let now := O.clock s.clockReads
  forEach (enqueueRecipient O eventId channels template overrides now)
    { s with clockReads := s.clockReads + 1 } recipients

/-- The records a call appended: those of the ledger `after` beyond the
length of the ledger `before`. -/
def appended (before after : State) : List LogEntry :=
  after.messageLog.drop before.messageLog.length

/-! ## Reports -/

/-- The value of `summarizeEvent`. -/
structure Summary where
  total : Nat
  byStatus : Props
deriving DecidableEq

/-- The expression `(v || 0) + 1`: a number is incremented, any other truthy
value is converted to a string and concatenated with `"1"` (`true` is
converted to the number 1); `none` when the conversion throws. -/
def orZeroPlusOne : JVal → Option JVal
  | undefined => some (num 1)
  | null => some (num 1)
  | JVal.bool b => some (if b then num 2 else num 1)
  | num n => some (num n.succ)
  | str s => some (if s = "" then num 1 else str (s ++ "1"))
  | arr items => (toStr (arr items)).map (fun printed => str (printed ++ "1"))
  | obj props => (toStr (obj props)).map (fun printed => str (printed ++ "1"))

/-- The function-valued members of `Object.prototype`, with the name each
function prints under. -/
def nativeName (k : String) : Option String :=
  if k = "constructor" then some "Object"
  else if k ∈ ["toString", "toLocaleString", "valueOf", "hasOwnProperty", "isPrototypeOf",
      "propertyIsEnumerable", "__defineGetter__", "__defineSetter__", "__lookupGetter__",
      "__lookupSetter__"] then some k
  else none

/-- The statement `acc.byStatus[k] = (acc.byStatus[k] || 0) + 1` on an object
created by `{}`. A key that is not an own property is read from
`Object.prototype`: a function there is concatenated with `"1"`, and the
accessor `__proto__` ignores the string assigned to it. -/
def tally (byStatus : Props) (k : String) : Option Props :=
  match lookup byStatus k with
  | some v => (orZeroPlusOne v).map (fun w => setProp byStatus k w)
  | none =>
    if k = "__proto__" then some byStatus
    else
      match nativeName k with
      | some name =>
        some (setProp byStatus k (str ("function " ++ name ++ "() \x7b [native code] \x7d1")))
      | none => some (setProp byStatus k (num 1))

/-- The callback of `logs.reduce` in `summarizeEvent`: `none` when the status
of the record cannot be converted to a property key. -/
def summarizeStep (acc : Summary) (log : LogEntry) : Option Summary :=
  match toStr log.status with
  | none => none
  | some k =>
    match tally acc.byStatus k with
    | none => none
    | some byStatus => some { total := acc.total + 1, byStatus := byStatus }

/-- The method `Array.prototype.reduce` with a callback that may throw. -/
def reduceLogs : Summary → List LogEntry → Option Summary
  | acc, [] => some acc
  | acc, log :: logs =>
    match summarizeStep acc log with
    | none => none
    | some next => reduceLogs next logs

/-- The function `summarizeEvent`, on the ledger it reads; `none` when it
throws. -/
def summarizeEvent (messageLog : List LogEntry) (eventId : String) : Option Summary :=
  reduceLogs { total := 0, byStatus := [] }
    (messageLog.filter (fun log => log.eventId == eventId))

/-! ## HTTP handlers -/

/-- The JSON bodies the handlers answer with; `uncaught` is the answer of
Express to an exception the handler did not catch. -/
inductive Body where
  | health : Body
  | imported (n : Nat) : Body
  | templates (ts : List Template) : Body
  | event (e : Event) : Body
  | error (message : String) : Body
  | queued (n : Nat) : Body
  | report (e : Event) (summary : Summary) : Body
  | logs (ls : List LogEntry) : Body
  | ok : Body
  | uncaught : Body
deriving DecidableEq

/-- An HTTP response: status code and body. -/
structure Response where
  status : Nat
  body : Body
deriving DecidableEq

/-- The response of Express when a handler throws. -/
def serverError : Response := ⟨500, Body.uncaught⟩

/-- The loop `payload.map((contact) => upsertContact(contact))`: the number of
contacts saved, or `none` when an upsert threw (the earlier ones stay). -/
def importAll (O : Oracle) : State → List JVal → State × Option Nat
  | s, [] => (s, some 0)
  | s, c :: cs =>
    match upsertContact O s c with
    | none => (s, none)
    | some (s1, _) =>
      match importAll O s1 cs with
      | (s2, some n) => (s2, some (n + 1))
      | (s2, none) => (s2, none)

/-- The handler of `POST /api/contacts/synergy-import`. -/
def importContacts (O : Oracle) (s : State) (body : JVal) : State × Response :=
  let payload := match body with
    | arr items => items
    | _ => []
  match importAll O s payload with
  | (s1, some n) => (s1, ⟨201, Body.imported n⟩)
  | (s1, none) => (s1, serverError)

/-- The handler of `POST /api/events`. Destructuring `req.body` throws on
`undefined` and `null`; the defaults `{}` apply to `undefined` only. -/
def createEvent (O : Oracle) (s : State) (body : JVal) : State × Response :=
  match member body "templateId", member body "audience", member body "overrides",
      member body "scheduledFor" with
  | some templateId, some audience, some overrides, some scheduledFor =>
    let audience := if audience = undefined then obj [] else audience
    let overrides := if overrides = undefined then obj [] else overrides
    match templates.find? (fun item => strictEq (str item.id) templateId) with
    | none => (s, ⟨400, Body.error "Unknown templateId"⟩)
    | some _ =>
      let s1 := if truthy scheduledFor then s else { s with clockReads := s.clockReads + 1 }
      let event : Event :=
        { id := O.uuid s.uuidCalls
          templateId := templateId
          audience := audience
          overrides := overrides
          scheduledFor := if truthy scheduledFor then scheduledFor else str (O.clock s.clockReads)
          createdAt := O.clock s1.clockReads }
      ({ s1 with
          events := s1.events ++ [event]
          uuidCalls := s1.uuidCalls + 1
          clockReads := s1.clockReads + 1 },
        ⟨201, Body.event event⟩)
  | _, _, _, _ => (s, serverError)

/-- The default of `req.body.channels`. -/
def defaultChannels : JVal := arr [str "sms", str "voice", str "email"]

/-- The handler of `POST /api/events/:id/send`. -/
def sendEvent (O : Oracle) (s : State) (id : String) (body : JVal) : State × Response :=
  match s.events.find? (fun item => item.id == id) with
  | none => (s, ⟨404, Body.error "Event not found"⟩)
  | some event =>
    match member body "channels" with
    | none => (s, serverError)
    | some requested =>
      let channels := orElse requested defaultChannels
      match filterAudience s event.audience with
      | none => (s, serverError)
      | some recipients =>
        let template := templates.find? (fun item => strictEq (str item.id) event.templateId)
        let r := enqueueMessages O s event.id recipients channels template event.overrides
        if r.thrown then (r.state, serverError)
        else
          (r.state,
            ⟨200, Body.queued (r.state.messageLog.filter (fun log => log.eventId == event.id)).length⟩)

/-- The handler of `GET /api/events/:id/report`. -/
def eventReport (s : State) (id : String) : Response :=
  match s.events.find? (fun item => item.id == id) with
  | none => ⟨404, Body.error "Event not found"⟩
  | some event =>
    match summarizeEvent s.messageLog event.id with
    | none => serverError
    | some summary => ⟨200, Body.report event summary⟩

/-- The handler of `GET /api/recipients/:id/logs`. -/
def recipientLogs (s : State) (id : String) : Response :=
  ⟨200, Body.logs (s.messageLog.filter (fun log => strictEq log.recipientId (str id)))⟩

/-- The test of `messageLog.find` in the two callbacks. -/
def matchesProvider (providerMessageId : JVal) (entry : LogEntry) : Bool :=
  strictEq (str entry.providerMessageId) providerMessageId

/-- Applies `f` to the first entry that `p` accepts, the one `messageLog.find`
returns and the handler then mutates in place. -/
def modifyFirst (p : LogEntry → Bool) (f : LogEntry → LogEntry) : List LogEntry → List LogEntry
  | [] => []
  | l :: ls => if p l then f l :: ls else l :: modifyFirst p f ls

/-- The handler of `POST /twilio/callback`. -/
def twilioCallback (O : Oracle) (s : State) (body : JVal) : State × Response :=
  match member body "providerMessageId", member body "status", member body "answered" with
  | some providerMessageId, some status, some answered =>
    match s.messageLog.find? (matchesProvider providerMessageId) with
    | none => (s, ⟨404, Body.error "Log not found"⟩)
    | some _ =>
      ({ s with
          messageLog := modifyFirst (matchesProvider providerMessageId)
            (fun log => { log with
              status := orElse status log.status
              answered := coalesce answered log.answered
              updatedAt := O.clock s.clockReads }) s.messageLog
          clockReads := s.clockReads + 1 },
        ⟨200, Body.ok⟩)
  | _, _, _ => (s, serverError)

/-- The handler of `POST /email/callback`. -/
def emailCallback (O : Oracle) (s : State) (body : JVal) : State × Response :=
  match member body "providerMessageId", member body "status" with
  | some providerMessageId, some status =>
    match s.messageLog.find? (matchesProvider providerMessageId) with
    | none => (s, ⟨404, Body.error "Log not found"⟩)
    | some _ =>
      ({ s with
          messageLog := modifyFirst (matchesProvider providerMessageId)
            (fun log => { log with
              status := orElse status log.status
              updatedAt := O.clock s.clockReads }) s.messageLog
          clockReads := s.clockReads + 1 },
        ⟨200, Body.ok⟩)
  | _, _ => (s, serverError)

/-- A request to one of the routes of the application. -/
inductive Request where
  | health : Request
  | importContacts (body : JVal) : Request
  | listTemplates : Request
  | createEvent (body : JVal) : Request
  | sendEvent (id : String) (body : JVal) : Request
  | eventReport (id : String) : Request
  | recipientLogs (id : String) : Request
  | twilioCallback (body : JVal) : Request
  | emailCallback (body : JVal) : Request

/-- The application: one request handled to completion. -/
def handle (O : Oracle) (s : State) : Request → State × Response
  | Request.health => (s, ⟨200, Body.health⟩)
  | Request.importContacts body => importContacts O s body
  | Request.listTemplates => (s, ⟨200, Body.templates templates⟩)
  | Request.createEvent body => createEvent O s body
  | Request.sendEvent id body => sendEvent O s id body
  | Request.eventReport id => (s, eventReport s id)
  | Request.recipientLogs id => (s, recipientLogs s id)
  | Request.twilioCallback body => twilioCallback O s body
  | Request.emailCallback body => emailCallback O s body

/-- The state after a sequence of requests, handled one after the other. -/
def run (O : Oracle) (s : State) (requests : List Request) : State :=
  requests.foldl (fun st request => (handle O st request).1) s

/-! ## Vocabulary of the specification -/

/-- The channels of the data model: `sms`, `voice` and `email`. -/
inductive Channel where
  | sms : Channel
  | voice : Channel
  | email : Channel
deriving DecidableEq

/-- The string a channel is requested and recorded under. -/
def Channel.toJVal : Channel → JVal
  | Channel.sms => str "sms"
  | Channel.voice => str "voice"
  | Channel.email => str "email"

/-- An empty field, in the words of the specification: absent (`undefined`,
or `null` in a JSON document) or the empty string. -/
def isEmptyField : JVal → Bool
  | undefined => true
  | null => true
  | str s => s == ""
  | _ => false

/-- A flag that is exactly the boolean `true`. -/
def isExactlyTrue : JVal → Bool
  | JVal.bool b => b
  | _ => false

/-- The eligibility rule as the specification words it. sms: non-empty phone
and optOutSMS not true; voice: non-empty phone and telephoneConsent exactly
true; email: non-empty email. -/
def eligible (r : Props) : Channel → Bool
  | Channel.sms => !isEmptyField (getProp r "phone") && !isExactlyTrue (getProp r "optOutSMS")
  | Channel.voice =>
    !isEmptyField (getProp r "phone") && isExactlyTrue (getProp r "telephoneConsent")
  | Channel.email => !isEmptyField (getProp r "email")

/-- A field that is absent from an object: reading it gives `undefined`. -/
def isAbsent : JVal → Bool
  | undefined => true
  | _ => false

/-- A field of a filter that is absent or holds a truthy value. -/
def absentOrTruthy (v : JVal) : Bool := isAbsent v || truthy v

/-- A flag field of a filter that is absent or names a flag: a non-empty
string. -/
def absentOrName : JVal → Bool
  | undefined => true
  | str f => f != ""
  | _ => false

/-- A filter whose school, grade and busRoute are each absent or truthy and
whose flag is absent or a non-empty string. -/
def plainFilter (filters : Props) : Bool :=
  absentOrTruthy (getProp filters "school") && absentOrTruthy (getProp filters "grade")
    && absentOrTruthy (getProp filters "busRoute") && absentOrName (getProp filters "flag")

/-- A contact has the flag a filter names: its flags hold `true` under the
name. A filter value that is no string names no flag. -/
def flagHolds (flag : JVal) (contact : Props) : Bool :=
  match flag with
  | str f => memberIsTrue (getProp contact "flags") f
  | _ => true

/-- The rule of the Audience Resolver as the specification words it: every
field present in the filter is matched, the conditions are ANDed, an absent
field does not restrict. A value matches when it is the same primitive value;
a flag matches when the flags of the contact hold `true` under its name. -/
def inAudience (filters contact : Props) : Bool :=
  (isAbsent (getProp filters "school")
      || strictEq (getProp contact "school") (getProp filters "school"))
    && (isAbsent (getProp filters "grade")
      || strictEq (getProp contact "grade") (getProp filters "grade"))
    && (isAbsent (getProp filters "busRoute")
      || strictEq (getProp contact "busRoute") (getProp filters "busRoute"))
    && (isAbsent (getProp filters "flag") || flagHolds (getProp filters "flag") contact)

/-- A value that can be converted to a string: every value but an object with
an own property `toString` and an array that holds one. -/
def printable (v : JVal) : Bool := (toStr v).isSome

/-- The eligibility rule as `enqueueMessages` applies it, on any requested
value. sms: truthy phone and falsy optOutSMS; voice: truthy phone and
telephoneConsent exactly `true`; email: truthy email; any other value: no
condition. -/
def guardRule (r : Props) (c : JVal) : Bool :=
  if c = str "sms" then truthy (getProp r "phone") && !truthy (getProp r "optOutSMS")
  else if c = str "voice" then
    truthy (getProp r "phone") && isExactlyTrue (getProp r "telephoneConsent")
  else if c = str "email" then truthy (getProp r "email")
  else true

/-- A value `summarizeEvent` stores in `byStatus`: a number or a string. -/
def isCount : JVal → Bool
  | num _ => true
  | str _ => true
  | _ => false

/-- A status key that is not the name of a member of `Object.prototype`. -/
def ordinaryKey (k : String) : Bool := decide (k ≠ "__proto__") && (nativeName k).isNone

/-- The number of records whose status prints as the key `k`. -/
def statusCount (logs : List LogEntry) (k : String) : Nat :=
  (logs.filter (fun log => toStr log.status == some k)).length

/-- The count `n` as the number `summarizeEvent` stores. -/
def countVal (n : Nat) : JVal := num (SafeInt.ofInt n)

/-- The count a value of `byStatus` stands for, 0 when it is not a number. -/
def countOf : JVal → Nat
  | num n => n.val.toNat
  | _ => 0

/-- The sum of the counts of a `byStatus` object. -/
def countSum (byStatus : Props) : Nat := (byStatus.map (fun p => countOf p.2)).sum

/-- The channel values a call iterates over: the elements of `channels` when
it is an array (on any other value `channels.forEach` throws). -/
def requestedItems (channels : JVal) : List JVal :=
  match channels with
  | arr items => items
  | _ => []

/-- The triple (event, recipient, channel) a record stands for. -/
def recordKey (l : LogEntry) : String × JVal × JVal := (l.eventId, l.recipientId, l.channel)

/-- The triples of the pairs recipient, channel that pass the guards of
`enqueueMessages`, recipient by recipient and channel by channel. -/
def guardedKeys (eventId : String) (recipients : List Props) (items : List JVal) :
    List (String × JVal × JVal) :=
  recipients.flatMap (fun r =>
    (items.filter (passesGuards r)).map (fun c => (eventId, getProp r "id", c)))

/-! ## Sample data -/

/-- An oracle whose values are numbered: `u0`, `u1`, ... and `t0`, `t1`, ... -/
def sampleOracle : Oracle :=
  { uuid := fun n => "u" ++ toString n, clock := fun n => "t" ++ toString n }

/-- The template `snow-day` of the catalog. -/
def snowDay : Template :=
  { id := "snow-day"
    name := "Snow Day – All schools closed."
    sms := "School closed today due to weather. Stay safe."
    voice := "This is the district calling: School is closed today due to weather. Please check email for details."
    emailSubject := "Snow Day – All Schools Closed"
    emailBody := "All schools are closed today. Buses will not run. We will update you with reopening details." }

/-- Contact A of the scenario of the specification, before it has an id. -/
def contactA : Props :=
  [("school", str "Lincoln"), ("phone", str "555-1"), ("email", str "a@x.com"),
    ("telephoneConsent", JVal.bool true)]

/-- Contact B of the scenario of the specification, before it has an id. -/
def contactB : Props := [("school", str "Lincoln"), ("email", str "b@x.com")]

/-- Contact A as the directory stores it under the id `a`. -/
def storedA : Props := contactA ++ [("id", str "a")]

/-- Contact B as the directory stores it under the id `b`. -/
def storedB : Props := contactB ++ [("id", str "b")]

/-- A stored contact with a phone who refused calls and opted out of SMS. -/
def contactOptedOut : Props :=
  [("id", str "c1"), ("phone", str "555-2"), ("email", str "c@x.com"),
    ("telephoneConsent", JVal.bool false), ("optOutSMS", JVal.bool true)]

/-- A stored contact with a phone whose `optOutSMS` is the text `no`. -/
def contactOptOutText : Props :=
  [("id", str "c3"), ("phone", str "555-3"), ("optOutSMS", str "no")]

/-- A stored contact with an empty phone, consent to calls and an email. -/
def contactNoPhone : Props :=
  [("id", str "c2"), ("phone", str ""), ("email", str "d@x.com"),
    ("telephoneConsent", JVal.bool true)]

/-- The email record the sample oracle gives when it is the first record
built from the initial state, for event `e1` and template `snow-day`. -/
def sampleEmailEntry (recipientId : JVal) : LogEntry :=
  { id := "u0"
    eventId := "e1"
    recipientId := recipientId
    channel := str "email"
    providerMessageId := "email-u1"
    status := str "queued"
    answered := null
    createdAt := "t0"
    updatedAt := "t0"
    content := obj [("subject", str snowDay.emailSubject), ("body", str snowDay.emailBody)] }

/-- A stored contact of grade 5 with the flag `vip`. -/
def contactGradeFive : Props :=
  [("id", str "g5"), ("school", str "Lincoln"), ("grade", num 5),
    ("flags", obj [("vip", JVal.bool true), ("band", JVal.bool false)])]

/-- A stored contact of grade 0 without flags. -/
def contactGradeZero : Props := [("id", str "g0"), ("school", str "Lincoln"), ("grade", num 0)]

/-- A directory that holds `contactGradeFive` and `contactGradeZero`, in this order. -/
def gradeDirectory : State :=
  { State.init with contacts := [(str "g5", contactGradeFive), (str "g0", contactGradeZero)] }

/-- An incoming contact for the id `g5`: a new grade and a phone, no school. -/
def incomingGradeFive : Props := [("id", str "g5"), ("grade", num 6), ("phone", str "555-6")]

/-- The three channels, as a request names them. -/
def allChannels : List JVal := [str "sms", str "voice", str "email"]

/-- The scenario of the specification: a directory that holds contact A under
the id `idA` and contact B under the id `idB`, no event and an empty ledger. -/
def scenarioDirectory (idA idB : JVal) (u t : Nat) : State :=
  { contacts := [(idA, contactA ++ [("id", idA)]), (idB, contactB ++ [("id", idB)])]
    events := []
    messageLog := []
    uuidCalls := u
    clockReads := t }

/-- The body of the request that creates the event of the scenario. -/
def scenarioEventBody : JVal :=
  obj [("templateId", str "snow-day"), ("audience", obj [("school", str "Lincoln")])]

/-- The body of the request that sends the event of the scenario. -/
def scenarioSendBody : JVal := obj [("channels", arr allChannels)]

/-- The event of the scenario as the sample oracle creates it from a state
that has drawn no uuid and read no clock. -/
def scenarioEvent : Event :=
  { id := "u0"
    templateId := str "snow-day"
    audience := obj [("school", str "Lincoln")]
    overrides := obj []
    scheduledFor := str "t0"
    createdAt := "t1" }

/-- The state of the scenario after the event was created and sent once,
with the sample oracle and the ids `a` and `b`: the event is `u0` and the
ledger holds the four records of the scenario. -/
def scenarioSent : State :=
  (sendEvent sampleOracle
    (createEvent sampleOracle (scenarioDirectory (str "a") (str "b") 0 0) scenarioEventBody).1
    "u0" scenarioSendBody).1

/-- A callback body for the voice record of contact A in `scenarioSent`: the
call was answered by nobody. -/
def sampleCallbackBody : Props :=
  [("providerMessageId", str "voice-u4"), ("status", str "answered"),
    ("answered", JVal.bool false)]

/-- The voice record of contact A in `scenarioSent`. -/
def scenarioVoiceEntry : LogEntry :=
  { id := "u3"
    eventId := "u0"
    recipientId := str "a"
    channel := str "voice"
    providerMessageId := "voice-u4"
    status := str "queued"
    answered := null
    createdAt := "t2"
    updatedAt := "t2"
    content := str snowDay.voice }

/-- A status no property key can be made of: an object whose own property
`toString` is not a function. -/
def unprintableStatus : JVal := obj [("toString", num 1)]

/-- The scenario as a sequence of requests from the initial state: import of
contact A and contact B (ids `u0` and `u1`), creation of the event (id `u2`),
one send on the three channels, then a voice callback for the voice record of
contact A (`voice-u6`) whose status is `unprintableStatus`. -/
def unprintableRequests : List Request :=
  [Request.importContacts (arr [obj contactA, obj contactB]),
    Request.createEvent scenarioEventBody,
    Request.sendEvent "u2" scenarioSendBody,
    Request.twilioCallback
      (obj [("providerMessageId", str "voice-u6"), ("status", unprintableStatus)])]

/-! # Theorems -/

/-! ## Values -/

theorem strictEq_true_iff (v : JVal) : strictEq v (JVal.bool true) = true ↔ v = JVal.bool true := by
  cases v <;> simp [strictEq]

/-! ## Loops over the ledger -/

theorem appended_of_log {before after : State} {ext : List LogEntry}
    (h : after.messageLog = before.messageLog ++ ext) : appended before after = ext := by
  unfold appended
  rw [h, List.drop_left]

theorem forEach_keys {α K : Type} (f : State → α → Result) (key : LogEntry → K)
    (g : α → List K) (xs : List α)
    (hf : ∀ s, ∀ x ∈ xs, ∃ ext, (f s x).state.messageLog = s.messageLog ++ ext ∧
      (ext.map key).Sublist (g x))
    (s : State) :
    ∃ ext, (forEach f s xs).state.messageLog = s.messageLog ++ ext ∧
      (ext.map key).Sublist (xs.flatMap g) := by
  induction xs generalizing s with
  | nil => exact ⟨[], by simp [forEach], by simp⟩
  | cons x xs ih =>
    obtain ⟨e1, h1, p1⟩ := hf s x (List.mem_cons_self _ _)
    simp only [forEach, List.flatMap_cons]
    split
    · exact ⟨e1, h1, p1.trans (List.sublist_append_left _ _)⟩
    · obtain ⟨e2, h2, p2⟩ := ih (fun s y hy => hf s y (List.mem_cons_of_mem _ hy)) (f s x).state
      refine ⟨e1 ++ e2, ?_, ?_⟩
      · rw [h2, h1, List.append_assoc]
      · rw [List.map_append]
        exact p1.append p2

theorem forEach_keys_exact {α K : Type} (f : State → α → Result) (key : LogEntry → K)
    (g : α → List K) (xs : List α)
    (hf : ∀ s, ∀ x ∈ xs, (f s x).thrown = false ∧
      ∃ ext, (f s x).state.messageLog = s.messageLog ++ ext ∧ ext.map key = g x)
    (s : State) :
    (forEach f s xs).thrown = false ∧
      ∃ ext, (forEach f s xs).state.messageLog = s.messageLog ++ ext ∧
        ext.map key = xs.flatMap g := by
  induction xs generalizing s with
  | nil => exact ⟨rfl, [], by simp [forEach], by simp⟩
  | cons x xs ih =>
    obtain ⟨t1, e1, h1, p1⟩ := hf s x (List.mem_cons_self _ _)
    obtain ⟨t2, e2, h2, p2⟩ :=
      ih (fun s y hy => hf s y (List.mem_cons_of_mem _ hy)) (f s x).state
    simp only [forEach, List.flatMap_cons, t1]
    refine ⟨by simpa using t2, e1 ++ e2, ?_, ?_⟩
    · simp only [Bool.false_eq_true, if_false]
      rw [h2, h1, List.append_assoc]
    · rw [List.map_append, p1, p2]

theorem flatMap_guard {α β : Type} (p : α → Bool) (k : α → β) (xs : List α) :
    xs.flatMap (fun c => if p c then [k c] else []) = (xs.filter p).map k := by
  induction xs with
  | nil => rfl
  | cons x xs ih =>
    by_cases h : p x = true <;> simp [List.flatMap_cons, List.filter_cons, h, ih]

/-! ## Content -/

theorem member_isSome {v : JVal} (k : String) (hu : v ≠ undefined) (hn : v ≠ null) :
    ∃ w, member v k = some w := by
  cases v <;> simp [member] at *

theorem overrideOr_some (t : Template) {overrides : JVal} (k : String)
    (field : Template → String) (hu : overrides ≠ undefined) (hn : overrides ≠ null) :
    ∃ w, overrideOr (some t) overrides k field = some w := by
  obtain ⟨o, ho⟩ := member_isSome k hu hn
  unfold overrideOr
  rw [ho]
  by_cases h : truthy o = true <;> simp [h]

theorem buildContent_some (t : Template) (overrides : JVal) (hn : overrides ≠ null)
    (channel : JVal) : ∃ content, buildContent (some t) overrides channel = some content := by
  have h1 : (if overrides = undefined then obj [] else overrides) ≠ undefined := by
    split <;> simp [*]
  have h2 : (if overrides = undefined then obj [] else overrides) ≠ null := by
    split <;> simp [*]
  unfold buildContent
  simp only
  split
  · exact overrideOr_some t _ _ h1 h2
  · split
    · exact overrideOr_some t _ _ h1 h2
    · obtain ⟨a, ha⟩ := overrideOr_some t "emailSubject" Template.emailSubject h1 h2
      obtain ⟨b, hb⟩ := overrideOr_some t "emailBody" Template.emailBody h1 h2
      rw [ha, hb]
      exact ⟨_, rfl⟩


/-! ## Dispatch -/

theorem enqueueChannel_keys (O : Oracle) (eventId : String) (template : Option Template)
    (overrides : JVal) (now : String) (recipient : Props) (s : State) (channel : JVal) :
    ∃ ext, (enqueueChannel O eventId template overrides now recipient s channel).state.messageLog
        = s.messageLog ++ ext ∧
      (ext.map recordKey).Sublist
        (if passesGuards recipient channel then [(eventId, getProp recipient "id", channel)]
          else []) := by
  unfold enqueueChannel
  by_cases hg : passesGuards recipient channel = true
  · simp only [hg, if_true]
    cases toStr channel with
    | none => exact ⟨[], by simp, by simp⟩
    | some printed =>
      cases buildContent template overrides channel with
      | none => exact ⟨[], by simp, by simp⟩
      | some content => exact ⟨[_], rfl, by simp [recordKey]⟩
  · simp only [hg]
    exact ⟨[], by simp, by simp⟩

theorem enqueueChannel_keys_exact (O : Oracle) (eventId : String) (t : Template)
    (overrides : JVal) (hn : overrides ≠ null) (now : String) (recipient : Props) (s : State)
    (channel : JVal) (hp : printable channel = true) :
    (enqueueChannel O eventId (some t) overrides now recipient s channel).thrown = false ∧
    ∃ ext, (enqueueChannel O eventId (some t) overrides now recipient s channel).state.messageLog
        = s.messageLog ++ ext ∧
      ext.map recordKey =
        (if passesGuards recipient channel then [(eventId, getProp recipient "id", channel)]
          else []) := by
  obtain ⟨content, hc⟩ := buildContent_some t overrides hn channel
  obtain ⟨printed, hpr⟩ := Option.isSome_iff_exists.1 hp
  unfold enqueueChannel
  by_cases hg : passesGuards recipient channel = true
  · rw [if_pos hg, hpr]
    simp only [hc]
    exact ⟨trivial, [_], rfl, by simp [recordKey, hg]⟩
  · rw [if_neg hg]
    exact ⟨rfl, [], by simp, by simp [hg]⟩

theorem enqueueRecipient_keys (O : Oracle) (eventId : String) (channels : JVal)
    (template : Option Template) (overrides : JVal) (now : String) (s : State)
    (recipient : Props) :
    ∃ ext, (enqueueRecipient O eventId channels template overrides now s recipient).state.messageLog
        = s.messageLog ++ ext ∧
      (ext.map recordKey).Sublist
        (((requestedItems channels).filter (passesGuards recipient)).map
          (fun c => (eventId, getProp recipient "id", c))) := by
  cases channels with
  | arr items =>
    obtain ⟨ext, h, hs⟩ := forEach_keys (enqueueChannel O eventId template overrides now recipient)
      recordKey
      (fun c => if passesGuards recipient c then [(eventId, getProp recipient "id", c)] else [])
      items (fun s c _ => enqueueChannel_keys O eventId template overrides now recipient s c) s
    rw [flatMap_guard] at hs
    exact ⟨ext, h, hs⟩
  | _ => exact ⟨[], by simp [enqueueRecipient], by simp⟩

theorem enqueueRecipient_keys_exact (O : Oracle) (eventId : String) (items : List JVal)
    (t : Template) (overrides : JVal) (hn : overrides ≠ null)
    (hp : ∀ c ∈ items, printable c = true) (now : String) (s : State) (recipient : Props) :
    (enqueueRecipient O eventId (arr items) (some t) overrides now s recipient).thrown = false ∧
    ∃ ext, (enqueueRecipient O eventId (arr items) (some t) overrides now s recipient).state.messageLog
        = s.messageLog ++ ext ∧
      ext.map recordKey =
        (items.filter (passesGuards recipient)).map
          (fun c => (eventId, getProp recipient "id", c)) := by
  have h := forEach_keys_exact (enqueueChannel O eventId (some t) overrides now recipient)
      recordKey
      (fun c => if passesGuards recipient c then [(eventId, getProp recipient "id", c)] else [])
      items
      (fun s c hc => enqueueChannel_keys_exact O eventId t overrides hn now recipient s c
        (hp c hc)) s
  rw [flatMap_guard] at h
  exact h

/-- The records a call of `enqueueMessages` appends, read as triples, are
taken in order from the triples of the guarded pairs; the ledger it found
is kept as a prefix. -/
theorem enqueueMessages_keys (O : Oracle) (s : State) (eventId : String)
    (recipients : List Props) (channels : JVal) (template : Option Template)
    (overrides : JVal) :
    ∃ ext, (enqueueMessages O s eventId recipients channels template overrides).state.messageLog
        = s.messageLog ++ ext ∧
      (ext.map recordKey).Sublist (guardedKeys eventId recipients (requestedItems channels)) := by
  unfold enqueueMessages guardedKeys
  exact forEach_keys _ recordKey _ recipients
    (fun s r _ => enqueueRecipient_keys O eventId channels template overrides _ s r) _

/-- With a template, overrides other than `null` and channel values that can
be converted to a string no step throws, and the records appended are exactly
those of the guarded pairs. -/
theorem enqueueMessages_keys_exact (O : Oracle) (s : State) (eventId : String)
    (recipients : List Props) (items : List JVal) (t : Template) (overrides : JVal)
    (hn : overrides ≠ null) (hp : ∀ c ∈ items, printable c = true) :
    (enqueueMessages O s eventId recipients (arr items) (some t) overrides).thrown = false ∧
    ∃ ext, (enqueueMessages O s eventId recipients (arr items) (some t) overrides).state.messageLog
        = s.messageLog ++ ext ∧
      ext.map recordKey = guardedKeys eventId recipients items := by
  unfold enqueueMessages guardedKeys
  exact forEach_keys_exact _ recordKey _ recipients
    (fun s r _ => enqueueRecipient_keys_exact O eventId items t overrides hn hp _ s r) _

/-- Every record a call of `enqueueMessages` appends stands for a recipient of
the list and a requested channel that passed the three guards. -/
theorem enqueueMessages_mem (O : Oracle) (s : State) (eventId : String)
    (recipients : List Props) (channels : JVal) (template : Option Template)
    (overrides : JVal) (l : LogEntry)
    (hl : l ∈ appended s
      (enqueueMessages O s eventId recipients channels template overrides).state) :
    ∃ r ∈ recipients, ∃ c ∈ requestedItems channels,
      passesGuards r c = true ∧ l.eventId = eventId ∧ l.recipientId = getProp r "id" ∧
      l.channel = c := by
  obtain ⟨ext, h, hs⟩ := enqueueMessages_keys O s eventId recipients channels template overrides
  rw [appended_of_log h] at hl
  have hk : recordKey l ∈ guardedKeys eventId recipients (requestedItems channels) :=
    hs.subset (List.mem_map_of_mem _ hl)
  unfold guardedKeys at hk
  obtain ⟨r, hr, hk⟩ := List.mem_flatMap.1 hk
  obtain ⟨c, hc, hk⟩ := List.mem_map.1 hk
  rw [List.mem_filter] at hc
  simp only [recordKey, Prod.mk.injEq] at hk
  exact ⟨r, hr, c, hc.1, hc.2, hk.1.symm, hk.2.1.symm, hk.2.2.symm⟩

theorem strictEq_str_str (a b : String) : strictEq (str a) (str b) = (a == b) := rfl

theorem passesGuards_sms {r : Props} (h : passesGuards r (str "sms") = true) :
    truthy (getProp r "phone") = true ∧ truthy (getProp r "optOutSMS") = false := by
  simp [passesGuards, strictEq_str_str] at h
  exact h

theorem passesGuards_voice {r : Props} (h : passesGuards r (str "voice") = true) :
    truthy (getProp r "phone") = true ∧ getProp r "telephoneConsent" = JVal.bool true := by
  simp [passesGuards, strictEq_true_iff, strictEq_str_str] at h
  exact h

theorem passesGuards_email {r : Props} (h : passesGuards r (str "email") = true) :
    truthy (getProp r "email") = true := by
  simp [passesGuards, strictEq_str_str] at h
  exact h


/-- C1. A recipient whose `telephoneConsent` is anything other than the boolean
`true` (absent, `false` or any other value) gets no `voice` record, whatever
the event, template, overrides and channels requested, with or without a
phone. A record is for the recipient whose id it carries; the hypothesis is
on every entry of the recipients list under that id. -/
theorem voice_requires_consent (O : Oracle) (s : State) (eventId : String)
    (recipients : List Props) (channels : JVal) (template : Option Template)
    (overrides : JVal) (i : JVal)
    (h : ∀ r ∈ recipients, getProp r "id" = i → getProp r "telephoneConsent" ≠ JVal.bool true) :
    ∀ l ∈ appended s
        (enqueueMessages O s eventId recipients channels template overrides).state,
      l.recipientId = i → l.channel ≠ str "voice" := by
  intro l hl hi hv
  obtain ⟨r, hr, c, _, hg, _, hid, hc⟩ :=
    enqueueMessages_mem O s eventId recipients channels template overrides l hl
  rw [← hc, hv] at hg
  exact h r hr (hid.symm.trans hi) (passesGuards_voice hg).2

theorem voice_requires_consent_witness :
    (∀ r ∈ [contactOptedOut], getProp r "id" = str "c1" →
        getProp r "telephoneConsent" ≠ JVal.bool true) ∧
      appended State.init
        (enqueueMessages sampleOracle State.init "e1" [contactOptedOut] (arr allChannels)
          (some snowDay) (obj [])).state = [sampleEmailEntry (str "c1")] ∧
      sampleEmailEntry (str "c1") ∈ appended State.init
        (enqueueMessages sampleOracle State.init "e1" [contactOptedOut] (arr allChannels)
          (some snowDay) (obj [])).state ∧
      (sampleEmailEntry (str "c1")).recipientId = str "c1" ∧
      (sampleEmailEntry (str "c1")).channel ≠ str "voice" :=
  ⟨by decide, by decide, by decide, rfl,
    voice_requires_consent sampleOracle State.init "e1" [contactOptedOut] (arr allChannels)
      (some snowDay) (obj []) (str "c1") (by decide) (sampleEmailEntry (str "c1")) (by decide)
      rfl⟩

theorem isEmptyField_falsy {v : JVal} (h : isEmptyField v = true) : truthy v = false := by
  cases v <;> simp_all [isEmptyField, truthy]

theorem truthy_not_empty {v : JVal} (h : truthy v = true) : isEmptyField v = false := by
  cases v <;> simp_all [isEmptyField, truthy]

/-- C3. A recipient whose phone is empty (absent or the empty string) gets no
`sms` record and no `voice` record, whatever the event and the channels
requested. A record is for the recipient whose id it carries; the hypothesis
is on every entry of the recipients list under that id. -/
theorem empty_phone_no_sms_no_voice (O : Oracle) (s : State) (eventId : String)
    (recipients : List Props) (channels : JVal) (template : Option Template)
    (overrides : JVal) (i : JVal)
    (h : ∀ r ∈ recipients, getProp r "id" = i → isEmptyField (getProp r "phone") = true) :
    ∀ l ∈ appended s
        (enqueueMessages O s eventId recipients channels template overrides).state,
      l.recipientId = i → l.channel ≠ str "sms" ∧ l.channel ≠ str "voice" := by
  intro l hl hi
  obtain ⟨r, hr, c, _, hg, _, hid, hc⟩ :=
    enqueueMessages_mem O s eventId recipients channels template overrides l hl
  have hp := isEmptyField_falsy (h r hr (hid.symm.trans hi))
  rw [← hc] at hg
  constructor
  · intro hv
    rw [hv] at hg
    have := (passesGuards_sms hg).1
    simp [hp] at this
  · intro hv
    rw [hv] at hg
    have := (passesGuards_voice hg).1
    simp [hp] at this

theorem empty_phone_no_sms_no_voice_witness :
    (∀ r ∈ [contactNoPhone], getProp r "id" = str "c2" →
        isEmptyField (getProp r "phone") = true) ∧
      appended State.init
        (enqueueMessages sampleOracle State.init "e1" [contactNoPhone] (arr allChannels)
          (some snowDay) (obj [])).state = [sampleEmailEntry (str "c2")] ∧
      sampleEmailEntry (str "c2") ∈ appended State.init
        (enqueueMessages sampleOracle State.init "e1" [contactNoPhone] (arr allChannels)
          (some snowDay) (obj [])).state ∧
      (sampleEmailEntry (str "c2")).recipientId = str "c2" ∧
      ((sampleEmailEntry (str "c2")).channel ≠ str "sms" ∧
        (sampleEmailEntry (str "c2")).channel ≠ str "voice") :=
  ⟨by decide, by decide, by decide, rfl,
    empty_phone_no_sms_no_voice sampleOracle State.init "e1" [contactNoPhone] (arr allChannels)
      (some snowDay) (obj []) (str "c2") (by decide) (sampleEmailEntry (str "c2")) (by decide)
      rfl⟩

/-- C4. A recipient with `optOutSMS = true` gets no `sms` record, whatever the
event and the channels requested, also when the phone is not empty. A record
is for the recipient whose id it carries; the hypothesis is on every entry of
the recipients list under that id. -/
theorem opt_out_no_sms (O : Oracle) (s : State) (eventId : String)
    (recipients : List Props) (channels : JVal) (template : Option Template)
    (overrides : JVal) (i : JVal)
    (h : ∀ r ∈ recipients, getProp r "id" = i → getProp r "optOutSMS" = JVal.bool true) :
    ∀ l ∈ appended s
        (enqueueMessages O s eventId recipients channels template overrides).state,
      l.recipientId = i → l.channel ≠ str "sms" := by
  intro l hl hi hv
  obtain ⟨r, hr, c, _, hg, _, hid, hc⟩ :=
    enqueueMessages_mem O s eventId recipients channels template overrides l hl
  rw [← hc, hv] at hg
  have := (passesGuards_sms hg).2
  rw [h r hr (hid.symm.trans hi)] at this
  simp [truthy] at this

theorem opt_out_no_sms_witness :
    (∀ r ∈ [contactOptedOut], getProp r "id" = str "c1" →
        getProp r "optOutSMS" = JVal.bool true) ∧
      truthy (getProp contactOptedOut "phone") = true ∧
      sampleEmailEntry (str "c1") ∈ appended State.init
        (enqueueMessages sampleOracle State.init "e1" [contactOptedOut] (arr allChannels)
          (some snowDay) (obj [])).state ∧
      (sampleEmailEntry (str "c1")).recipientId = str "c1" ∧
      (sampleEmailEntry (str "c1")).channel ≠ str "sms" :=
  ⟨by decide, by decide, by decide, rfl,
    opt_out_no_sms sampleOracle State.init "e1" [contactOptedOut] (arr allChannels)
      (some snowDay) (obj []) (str "c1") (by decide) (sampleEmailEntry (str "c1")) (by decide)
      rfl⟩


theorem strictEq_true_eq (v : JVal) : strictEq v (JVal.bool true) = isExactlyTrue v := by
  cases v <;> simp [strictEq, isExactlyTrue]

theorem strictEq_str_ne {c : JVal} {k : String} (h : c ≠ str k) : strictEq c (str k) = false := by
  cases c with
  | str s =>
    have hs : s ≠ k := fun e => h (by rw [e])
    simp [strictEq, hs]
  | _ => rfl

/-- The three guards of `enqueueMessages` are the rule `guardRule`. -/
theorem passesGuards_eq_guardRule (r : Props) (c : JVal) : passesGuards r c = guardRule r c := by
  by_cases h1 : c = str "sms"
  · subst h1
    cases hp : truthy (getProp r "phone") <;> cases ho : truthy (getProp r "optOutSMS") <;>
      simp [passesGuards, guardRule, strictEq_str_str, hp, ho]
  · by_cases h2 : c = str "voice"
    · subst h2
      cases hp : truthy (getProp r "phone") <;>
        cases ho : isExactlyTrue (getProp r "telephoneConsent") <;>
        simp [passesGuards, guardRule, strictEq_str_str, strictEq_true_eq, hp, ho]
    · by_cases h3 : c = str "email"
      · subst h3
        cases hp : truthy (getProp r "email") <;>
          simp [passesGuards, guardRule, strictEq_str_str, hp]
      · simp [passesGuards, guardRule, strictEq_str_ne h1, strictEq_str_ne h2,
          strictEq_str_ne h3, h1, h2, h3]

theorem guardedKeys_eq_guardRule (eventId : String) (recipients : List Props)
    (items : List JVal) :
    guardedKeys eventId recipients items =
      ((recipients ×ˢ items).filter (fun p => guardRule p.1 p.2)).map
        (fun p => (eventId, getProp p.1 "id", p.2)) := by
  induction recipients with
  | nil => rfl
  | cons r rs ih =>
    unfold guardedKeys at ih ⊢
    rw [List.flatMap_cons, ih]
    have hprod : ((r :: rs) ×ˢ items) = items.map (Prod.mk r) ++ (rs ×ˢ items) := by
      simp [SProd.sprod, List.product]
    rw [hprod, List.filter_append, List.map_append]
    congr 1
    rw [List.filter_map, List.map_map]
    have hf : passesGuards r = ((fun p => guardRule p.1 p.2) ∘ Prod.mk r) := by
      funext c
      exact passesGuards_eq_guardRule r c
    rw [hf]
    rfl

/-- C2, as the code has it. For every list of recipients and every array of requested
channel values that can each be converted to a string, when the event has a
template and its overrides are not `null`, `enqueueMessages` does not throw and
appends exactly one record for each pair of recipients x channels that passes
the rule the code applies, in the order of the two loops, and no record for
any other pair; the number of records appended is the number of such pairs.
The rule of the code is `guardRule`: sms needs a truthy phone and a falsy
`optOutSMS`, voice a truthy phone and `telephoneConsent` exactly `true`, email
a truthy email, and a value other than these three has no condition. -/
theorem one_record_per_guarded_pair (O : Oracle) (s : State) (eventId : String)
    (recipients : List Props) (items : List JVal) (t : Template) (overrides : JVal)
    (hn : overrides ≠ null) (hp : ∀ c ∈ items, printable c = true) :
    (enqueueMessages O s eventId recipients (arr items) (some t) overrides).thrown = false ∧
      (enqueueMessages O s eventId recipients (arr items) (some t) overrides).state.messageLog =
        s.messageLog ++ appended s
          (enqueueMessages O s eventId recipients (arr items) (some t) overrides).state ∧
      (appended s
          (enqueueMessages O s eventId recipients (arr items) (some t) overrides).state).map
          recordKey =
        ((recipients ×ˢ items).filter (fun p => guardRule p.1 p.2)).map
          (fun p => (eventId, getProp p.1 "id", p.2)) ∧
      (appended s
          (enqueueMessages O s eventId recipients (arr items) (some t) overrides).state).length =
        ((recipients ×ˢ items).filter (fun p => guardRule p.1 p.2)).length := by
  obtain ⟨hthrown, ext, hlog, hkeys⟩ :=
    enqueueMessages_keys_exact O s eventId recipients items t overrides hn hp
  rw [guardedKeys_eq_guardRule eventId recipients items] at hkeys
  rw [appended_of_log hlog]
  refine ⟨hthrown, hlog, hkeys, ?_⟩
  have := congrArg List.length hkeys
  simpa using this

theorem one_record_per_guarded_pair_witness :
    obj [] ≠ null ∧ (∀ c ∈ [str "sms", str "voice", str "email", str "fax"], printable c = true) ∧
      ((([storedA, storedB, contactOptOutText] ×ˢ
          [str "sms", str "voice", str "email", str "fax"]).filter
        (fun p => guardRule p.1 p.2)).map (fun p => (getProp p.1 "id", p.2))
        = [(str "a", str "sms"), (str "a", str "voice"), (str "a", str "email"),
            (str "a", str "fax"), (str "b", str "email"), (str "b", str "fax"),
            (str "c3", str "fax")]) ∧
      (appended State.init
          (enqueueMessages sampleOracle State.init "e1" [storedA, storedB, contactOptOutText]
            (arr [str "sms", str "voice", str "email", str "fax"])
            (some snowDay) (obj [])).state).length =
        (([storedA, storedB, contactOptOutText] ×ˢ
          [str "sms", str "voice", str "email", str "fax"]).filter
          (fun p => guardRule p.1 p.2)).length :=
  ⟨by decide, by decide, by decide,
    (one_record_per_guarded_pair sampleOracle State.init "e1"
      [storedA, storedB, contactOptOutText] [str "sms", str "voice", str "email", str "fax"]
      snowDay (obj []) (by decide) (by decide)).2.2.2⟩

/-- C2, counterexample. A contact with a non-empty phone whose `optOutSMS` is
the text `no` passes the sms rule as the specification words it (`optOutSMS` is not
`true`), yet a dispatch of `sms` to this contact appends no record: the code
skips the pair on any truthy `optOutSMS`. -/
theorem opt_out_text_blocks_sms :
    eligible contactOptOutText Channel.sms = true ∧
      ([contactOptOutText] ×ˢ [Channel.sms]).filter (fun p => eligible p.1 p.2)
        = [(contactOptOutText, Channel.sms)] ∧
      (enqueueMessages sampleOracle State.init "e1" [contactOptOutText]
        (arr [Channel.sms.toJVal]) (some snowDay) (obj [])).thrown = false ∧
      appended State.init
        (enqueueMessages sampleOracle State.init "e1" [contactOptOutText]
          (arr [Channel.sms.toJVal]) (some snowDay) (obj [])).state = [] := by
  decide

theorem passesGuards_imp_eligible {r : Props} {ch : Channel}
    (h : passesGuards r ch.toJVal = true) : eligible r ch = true := by
  cases ch
  · obtain ⟨hp, ho⟩ := passesGuards_sms h
    have ht : isExactlyTrue (getProp r "optOutSMS") = false := by
      generalize getProp r "optOutSMS" = o at ho
      cases o <;> simp_all [truthy, isExactlyTrue]
    simp [eligible, truthy_not_empty hp, ht]
  · obtain ⟨hp, ho⟩ := passesGuards_voice h
    simp [eligible, truthy_not_empty hp, ho, isExactlyTrue]
  · have he := passesGuards_email h
    simp [eligible, truthy_not_empty he]

/-- C7, as the code has it. For every list of requested channel values, every record
that `enqueueMessages` appends has a channel that is one of the requested
values and the id of a recipient of the call, and whenever that channel is
`sms`, `voice` or `email` that recipient passed the eligibility rule of the
channel. -/
theorem recorded_channel_requested_and_eligible (O : Oracle) (s : State) (eventId : String)
    (recipients : List Props) (channels : List JVal) (template : Option Template)
    (overrides : JVal) :
    ∀ l ∈ appended s
        (enqueueMessages O s eventId recipients (arr channels) template overrides).state,
      l.channel ∈ channels ∧
        ∃ r ∈ recipients, l.recipientId = getProp r "id" ∧
          ∀ ch : Channel, l.channel = ch.toJVal → eligible r ch = true := by
  intro l hl
  obtain ⟨r, hr, c, hc, hg, _, hid, hch⟩ :=
    enqueueMessages_mem O s eventId recipients (arr channels) template overrides l hl
  refine ⟨hch ▸ hc, r, hr, hid, ?_⟩
  intro ch hch2
  rw [← hch, hch2] at hg
  exact passesGuards_imp_eligible hg

theorem recorded_channel_requested_and_eligible_witness :
    sampleEmailEntry (str "b") ∈ appended State.init
        (enqueueMessages sampleOracle State.init "e1" [storedB] (arr [str "email"])
          (some snowDay) (obj [])).state ∧
      ((sampleEmailEntry (str "b")).channel ∈ [str "email"] ∧
        ∃ r ∈ [storedB], (sampleEmailEntry (str "b")).recipientId = getProp r "id" ∧
          ∀ ch : Channel, (sampleEmailEntry (str "b")).channel = ch.toJVal →
            eligible r ch = true) :=
  ⟨by decide,
    recorded_channel_requested_and_eligible sampleOracle State.init "e1" [storedB]
      [str "email"] (some snowDay) (obj []) (sampleEmailEntry (str "b")) (by decide)⟩

/-- C7, counterexample. With the requested channel `fax` a record of channel
`fax` is appended for contact B, a channel that is none of `sms`, `voice` and
`email`. -/
theorem unknown_channel_is_recorded :
    (appended State.init
        (enqueueMessages sampleOracle State.init "e1" [storedB] (arr [str "fax"])
          (some snowDay) (obj [])).state).map recordKey = [("e1", str "b", str "fax")] ∧
      ¬ ∀ l ∈ appended State.init
          (enqueueMessages sampleOracle State.init "e1" [storedB] (arr [str "fax"])
            (some snowDay) (obj [])).state,
        ∃ ch : Channel, l.channel = ch.toJVal := by
  have hk : (appended State.init
        (enqueueMessages sampleOracle State.init "e1" [storedB] (arr [str "fax"])
          (some snowDay) (obj [])).state).map recordKey = [("e1", str "b", str "fax")] := by
    decide
  refine ⟨hk, ?_⟩
  intro h
  cases hl : appended State.init
        (enqueueMessages sampleOracle State.init "e1" [storedB] (arr [str "fax"])
          (some snowDay) (obj [])).state with
  | nil => rw [hl] at hk; simp at hk
  | cons l ls =>
    rw [hl] at hk h
    obtain ⟨ch, hch⟩ := h l (List.mem_cons_self _ _)
    simp only [List.map_cons, recordKey, List.cons.injEq, Prod.mk.injEq] at hk
    rw [hk.1.2.2] at hch
    cases ch <;> simp [Channel.toJVal] at hch

theorem forEach_blocks {α : Type} (f : State → α → Result) (P : α → List LogEntry → Prop)
    (xs : List α) (hnil : ∀ x, P x [])
    (hf : ∀ s x, ∃ ext, (f s x).state.messageLog = s.messageLog ++ ext ∧ P x ext)
    (s : State) :
    ∃ blocks : List (List LogEntry),
      (forEach f s xs).state.messageLog = s.messageLog ++ blocks.flatten ∧
        List.Forall₂ P xs blocks := by
  induction xs generalizing s with
  | nil => exact ⟨[], by simp [forEach], List.Forall₂.nil⟩
  | cons x xs ih =>
    obtain ⟨e1, h1, p1⟩ := hf s x
    simp only [forEach]
    split
    · refine ⟨e1 :: xs.map (fun _ => []), ?_, List.Forall₂.cons p1 ?_⟩
      · rw [h1]
        congr 1
        clear ih
        induction xs with
        | nil => simp
        | cons y ys ihy => simp
      · clear ih
        induction xs with
        | nil => exact List.Forall₂.nil
        | cons y ys ihy => exact List.Forall₂.cons (hnil y) ihy
    · obtain ⟨bs, h2, p2⟩ := ih (f s x).state
      refine ⟨e1 :: bs, ?_, List.Forall₂.cons p1 p2⟩
      rw [h2, h1, List.flatten_cons, List.append_assoc]

/-- The records appended for one recipient carry the event id and the id of
the recipient, and their channels are a sublist of the requested values. -/
theorem enqueueRecipient_block (O : Oracle) (eventId : String) (items : List JVal)
    (template : Option Template) (overrides : JVal) (now : String) (s : State)
    (recipient : Props) :
    ∃ ext, (enqueueRecipient O eventId (arr items) template overrides now s
        recipient).state.messageLog = s.messageLog ++ ext ∧
      (∀ l ∈ ext, l.eventId = eventId ∧ l.recipientId = getProp recipient "id") ∧
      (ext.map (fun l => l.channel)).Sublist items := by
  obtain ⟨ext, hlog, hsub⟩ :=
    enqueueRecipient_keys O eventId (arr items) template overrides now s recipient
  refine ⟨ext, hlog, ?_, ?_⟩
  · intro l hl
    have hk := hsub.subset (List.mem_map_of_mem recordKey hl)
    obtain ⟨c, _, hc⟩ := List.mem_map.1 hk
    simp only [recordKey, Prod.mk.injEq] at hc
    exact ⟨hc.1.symm, hc.2.1.symm⟩
  · have h2 := hsub.map (fun k : String × JVal × JVal => k.2.2)
    simp only [List.map_map, requestedItems] at h2
    have h3 : ((fun k : String × JVal × JVal => k.2.2) ∘ recordKey) = fun l => l.channel := rfl
    have h4 : ((fun k : String × JVal × JVal => k.2.2) ∘
        fun c => (eventId, getProp recipient "id", c)) = id := rfl
    rw [h3, h4, List.map_id] at h2
    exact h2.trans (List.filter_sublist _)

/-- C8, as the code has it. When the requested channel values are pairwise distinct,
the records one call of `enqueueMessages` appends are, in order, one block of
records (possibly empty) for each recipient of the list, and the records of
the block of a recipient carry the event id, the id of that recipient and
pairwise distinct channels, each of them a requested value: at most one record
for each recipient of the list and each channel. -/
theorem one_record_per_recipient_and_channel (O : Oracle) (s : State) (eventId : String)
    (recipients : List Props) (channels : List JVal) (template : Option Template)
    (overrides : JVal) (hc : channels.Nodup) :
    ∃ blocks : List (List LogEntry),
      appended s (enqueueMessages O s eventId recipients (arr channels) template
        overrides).state = blocks.flatten ∧
      List.Forall₂
        (fun r block =>
          (∀ l ∈ block, l.eventId = eventId ∧ l.recipientId = getProp r "id" ∧
            l.channel ∈ channels) ∧
          (block.map (fun l => l.channel)).Nodup)
        recipients blocks := by
  obtain ⟨blocks, hlog, hall⟩ := forEach_blocks
    (enqueueRecipient O eventId (arr channels) template overrides (O.clock s.clockReads))
    (fun r block =>
      (∀ l ∈ block, l.eventId = eventId ∧ l.recipientId = getProp r "id" ∧
        l.channel ∈ channels) ∧
      (block.map (fun l => l.channel)).Nodup)
    recipients (fun _ => ⟨by simp, by simp⟩)
    (fun s r => by
      obtain ⟨ext, hlog, hid, hsub⟩ :=
        enqueueRecipient_block O eventId channels template overrides (O.clock _) s r
      refine ⟨ext, hlog, ⟨?_, hsub.nodup hc⟩⟩
      intro l hl
      exact ⟨(hid l hl).1, (hid l hl).2, hsub.subset (List.mem_map_of_mem _ hl)⟩)
    { s with clockReads := s.clockReads + 1 }
  refine ⟨blocks, ?_, hall⟩
  exact appended_of_log hlog

theorem one_record_per_recipient_and_channel_witness :
    allChannels.Nodup ∧
      (appended State.init
        (enqueueMessages sampleOracle State.init "e1" [storedA, storedB] (arr allChannels)
          (some snowDay) (obj [])).state).map recordKey =
        [("e1", str "a", str "sms"), ("e1", str "a", str "voice"), ("e1", str "a", str "email"),
          ("e1", str "b", str "email")] ∧
      ∃ blocks : List (List LogEntry),
        appended State.init (enqueueMessages sampleOracle State.init "e1" [storedA, storedB]
          (arr allChannels) (some snowDay) (obj [])).state = blocks.flatten ∧
        List.Forall₂
          (fun r block =>
            (∀ l ∈ block, l.eventId = "e1" ∧ l.recipientId = getProp r "id" ∧
              l.channel ∈ allChannels) ∧
            (block.map (fun l => l.channel)).Nodup)
          [storedA, storedB] blocks :=
  ⟨by decide, by decide,
    one_record_per_recipient_and_channel sampleOracle State.init "e1" [storedA, storedB]
      allChannels (some snowDay) (obj []) (by decide)⟩


/-- C8, counterexample. With the channels `sms, sms` one call appends two
records for the same triple (event `e1`, recipient `a`, channel `sms`). -/
theorem repeated_channel_repeats_record :
    (appended State.init
        (enqueueMessages sampleOracle State.init "e1" [storedA] (arr [str "sms", str "sms"])
          (some snowDay) (obj [])).state).map recordKey =
        [("e1", str "a", str "sms"), ("e1", str "a", str "sms")] ∧
      ¬ ((appended State.init
        (enqueueMessages sampleOracle State.init "e1" [storedA] (arr [str "sms", str "sms"])
          (some snowDay) (obj [])).state).map recordKey).Nodup := by
  have hk : (appended State.init
        (enqueueMessages sampleOracle State.init "e1" [storedA] (arr [str "sms", str "sms"])
          (some snowDay) (obj [])).state).map recordKey =
        [("e1", str "a", str "sms"), ("e1", str "a", str "sms")] := by decide
  refine ⟨hk, ?_⟩
  rw [hk]
  simp


/-- C5. The scenario of the specification. From an empty ledger and a directory
holding contact A and contact B under distinct ids, creating an event with
template `snow-day` and audience school `Lincoln`, then sending it on the
channels sms, voice, email leaves exactly the records (A, sms), (A, voice),
(A, email), (B, email): three for A, one for B; the response is 200 with
`queued = 4`. -/
theorem scenario_queues_four (O : Oracle) (idA idB : JVal) (hid : idA ≠ idB) (u t : Nat) :
    (∃ e, (createEvent O (scenarioDirectory idA idB u t) scenarioEventBody).2
          = ⟨201, Body.event e⟩ ∧ e.id = O.uuid u ∧ e.templateId = str "snow-day") ∧
      (sendEvent O (createEvent O (scenarioDirectory idA idB u t) scenarioEventBody).1
          (O.uuid u) scenarioSendBody).1.messageLog.map recordKey =
        [(O.uuid u, idA, str "sms"), (O.uuid u, idA, str "voice"),
          (O.uuid u, idA, str "email"), (O.uuid u, idB, str "email")] ∧
      ((sendEvent O (createEvent O (scenarioDirectory idA idB u t) scenarioEventBody).1
          (O.uuid u) scenarioSendBody).1.messageLog.filter
            (fun l => l.recipientId = idA)).length = 3 ∧
      ((sendEvent O (createEvent O (scenarioDirectory idA idB u t) scenarioEventBody).1
          (O.uuid u) scenarioSendBody).1.messageLog.filter
            (fun l => l.recipientId = idB)).length = 1 ∧
      (sendEvent O (createEvent O (scenarioDirectory idA idB u t) scenarioEventBody).1
          (O.uuid u) scenarioSendBody).2 = ⟨200, Body.queued 4⟩ := by
  have hid2 : ¬ idB = idA := fun h => hid h.symm
  refine ⟨?_, ?_, ?_, ?_, ?_⟩ <;>
  simp [sendEvent, createEvent, member, getProp, lookup, templates, truthy, strictEq,
    filterAudience, filterThrowing, audienceMatch, contactA, contactB, orElse, allChannels,
    enqueueMessages, forEach, enqueueRecipient, enqueueChannel, passesGuards, buildContent,
    overrideOr, defaultChannels, scenarioDirectory, scenarioEventBody, scenarioSendBody,
    recordKey, toStr, hid, hid2]

theorem scenario_queues_four_witness :
    str "u0" ≠ str "u1" ∧
      (importContacts sampleOracle State.init (arr [obj contactA, obj contactB])).1
        = scenarioDirectory (str "u0") (str "u1") 2 0 ∧
      (sendEvent sampleOracle
        (createEvent sampleOracle (scenarioDirectory (str "u0") (str "u1") 2 0)
          scenarioEventBody).1
        (sampleOracle.uuid 2) scenarioSendBody).2 = ⟨200, Body.queued 4⟩ :=
  ⟨by decide, by decide,
    (scenario_queues_four sampleOracle (str "u0") (str "u1") (by decide) 2 0).2.2.2.2⟩

theorem find_some_id {events : List Event} {id : String} {event : Event}
    (h : events.find? (fun item => item.id == id) = some event) : event.id = id := by
  have := List.find?_some h
  simpa using this

/-- The count `sendEvent` answers with is the number of records of the event
in the whole ledger: those it held before the call plus those the call
appended. -/
theorem sendEvent_queued_count (O : Oracle) (s : State) (id : String) (body : JVal) (n : Nat)
    (h : (sendEvent O s id body).2 = ⟨200, Body.queued n⟩) :
    n = (s.messageLog.filter (fun log => log.eventId == id)).length
      + (appended s (sendEvent O s id body).1).length := by
  unfold sendEvent at h ⊢
  cases hf : s.events.find? (fun item => item.id == id) with
  | none => simp [hf] at h
  | some event =>
    have hid := find_some_id hf
    simp only [hf] at h ⊢
    cases hm : member body "channels" with
    | none => simp [hm, serverError] at h
    | some requested =>
      simp only [hm] at h ⊢
      cases ha : filterAudience s event.audience with
      | none => simp [ha, serverError] at h
      | some recipients =>
        simp only [ha] at h ⊢
        obtain ⟨ext, hlog, _⟩ := enqueueMessages_keys O s event.id recipients
          (orElse requested defaultChannels)
          (templates.find? (fun item => strictEq (str item.id) event.templateId))
          event.overrides
        have hall : ∀ l ∈ ext, l.eventId = id := by
          intro l hl
          have hl2 : l ∈ appended s (enqueueMessages O s event.id recipients
              (orElse requested defaultChannels)
              (templates.find? (fun item => strictEq (str item.id) event.templateId))
              event.overrides).state := by
            rw [appended_of_log hlog]; exact hl
          obtain ⟨_, _, _, _, _, he, _, _⟩ := enqueueMessages_mem O s event.id recipients _ _ _ l hl2
          rw [he, hid]
        by_cases ht : (enqueueMessages O s event.id recipients
              (orElse requested defaultChannels)
              (templates.find? (fun item => strictEq (str item.id) event.templateId))
              event.overrides).thrown = true
        · simp [ht, serverError] at h
        · simp only [ht] at h ⊢
          simp only [Bool.false_eq_true, if_false] at h ⊢
          simp only [Response.mk.injEq, Body.queued.injEq, true_and] at h
          rw [← h, appended_of_log hlog, hlog, List.filter_append, List.length_append, hid]
          congr 1
          rw [List.filter_eq_self.2]
          intro l hl
          simp [hall l hl]

/-- C6 fails on the code. The scenario of the specification, sent twice: each
call creates 4 records; the first answers `queued = 4`, the second answers
`queued = 8`, the number of records of the event in the whole ledger. -/
theorem resend_reports_cumulative_count :
    (sendEvent sampleOracle
        (createEvent sampleOracle (scenarioDirectory (str "a") (str "b") 0 0)
          scenarioEventBody).1 "u0" scenarioSendBody).2 = ⟨200, Body.queued 4⟩ ∧
      (appended
        (sendEvent sampleOracle
          (createEvent sampleOracle (scenarioDirectory (str "a") (str "b") 0 0)
            scenarioEventBody).1 "u0" scenarioSendBody).1
        (sendEvent sampleOracle
          (sendEvent sampleOracle
            (createEvent sampleOracle (scenarioDirectory (str "a") (str "b") 0 0)
              scenarioEventBody).1 "u0" scenarioSendBody).1
          "u0" scenarioSendBody).1).length = 4 ∧
      (sendEvent sampleOracle
        (sendEvent sampleOracle
          (createEvent sampleOracle (scenarioDirectory (str "a") (str "b") 0 0)
            scenarioEventBody).1 "u0" scenarioSendBody).1
        "u0" scenarioSendBody).2 = ⟨200, Body.queued 8⟩ := by
  decide

theorem lookup_cons (k' : String) (v : JVal) (rest : Props) (k : String) :
    lookup ((k', v) :: rest) k
      = match lookup rest k with
        | some w => some w
        | none => if k' = k then some v else none := rfl

theorem lookup_mem {b : Props} {k : String} {v : JVal} (h : lookup b k = some v) :
    (k, v) ∈ b := by
  induction b with
  | nil => simp [lookup] at h
  | cons p b ih =>
    obtain ⟨pk, pv⟩ := p
    rw [lookup_cons] at h
    cases hl : lookup b k with
    | some w =>
      rw [hl] at h
      simp only [Option.some.injEq] at h
      subst h
      exact List.mem_cons_of_mem _ (ih hl)
    | none =>
      rw [hl] at h
      by_cases hk : pk = k
      · simp only [hk, if_true, Option.some.injEq] at h
        subst h; subst hk
        exact List.mem_cons_self _ _
      · simp [hk] at h

theorem setProp_isCount {b : Props} (hb : ∀ p ∈ b, isCount p.2 = true) (k : String) {w : JVal}
    (hw : isCount w = true) : ∀ p ∈ setProp b k w, isCount p.2 = true := by
  intro p hp
  unfold setProp at hp
  split at hp
  · obtain ⟨q, hq, hqp⟩ := List.mem_map.1 hp
    by_cases hk : q.1 = k
    · rw [if_pos hk] at hqp
      rw [← hqp]
      exact hw
    · rw [if_neg hk] at hqp
      rw [← hqp]
      exact hb q hq
  · rcases List.mem_append.1 hp with h | h
    · exact hb p h
    · rw [List.mem_singleton.1 h]
      exact hw

theorem orZeroPlusOne_isCount {v : JVal} (hv : isCount v = true) :
    ∃ w, orZeroPlusOne v = some w ∧ isCount w = true := by
  cases v with
  | num n => exact ⟨_, rfl, rfl⟩
  | str s =>
    by_cases hs : s = ""
    · exact ⟨num 1, by simp [orZeroPlusOne, hs], rfl⟩
    · exact ⟨str (s ++ "1"), by simp [orZeroPlusOne, hs], rfl⟩
  | _ => simp [isCount] at hv

/-- The statement of the callback of `reduce` does not throw on a `byStatus`
object that holds numbers and strings, and leaves such an object. -/
theorem tally_isCount {b : Props} (hb : ∀ p ∈ b, isCount p.2 = true) (k : String) :
    ∃ b', tally b k = some b' ∧ ∀ p ∈ b', isCount p.2 = true := by
  unfold tally
  cases hl : lookup b k with
  | some v =>
    obtain ⟨w, hw, hc⟩ := orZeroPlusOne_isCount (hb _ (lookup_mem hl))
    exact ⟨setProp b k w, by simp [hw], setProp_isCount hb k hc⟩
  | none =>
    by_cases hk : k = "__proto__"
    · exact ⟨b, by simp [hk], hb⟩
    · cases hn : nativeName k with
      | some name =>
        exact ⟨setProp b k (str ("function " ++ name ++ "() \x7b [native code] \x7d1")),
          by simp [hk], setProp_isCount hb k rfl⟩
      | none => exact ⟨setProp b k (num 1), by simp [hk], setProp_isCount hb k rfl⟩

/-- When `logs.reduce` returns, the total has grown by the number of records. -/
theorem reduceLogs_total (logs : List LogEntry) (acc S : Summary)
    (h : reduceLogs acc logs = some S) : S.total = acc.total + logs.length := by
  induction logs generalizing acc with
  | nil =>
    simp only [reduceLogs, Option.some.injEq] at h
    rw [← h]
    rfl
  | cons l ls ih =>
    simp only [reduceLogs] at h
    cases hs : summarizeStep acc l with
    | none => rw [hs] at h; cases h
    | some next =>
      rw [hs] at h
      simp only at h
      have hn : next.total = acc.total + 1 := by
        unfold summarizeStep at hs
        cases hp : toStr l.status with
        | none => rw [hp] at hs; cases hs
        | some k =>
          rw [hp] at hs
          simp only at hs
          cases ht : tally acc.byStatus k with
          | none => rw [ht] at hs; cases hs
          | some b =>
            rw [ht] at hs
            simp only [Option.some.injEq] at hs
            rw [← hs]
      rw [ih next h, hn, List.length_cons]
      omega

/-- The method `logs.reduce` returns when every status can be converted to a
property key. -/
theorem reduceLogs_some (logs : List LogEntry) (acc : Summary)
    (hb : ∀ p ∈ acc.byStatus, isCount p.2 = true)
    (hp : ∀ l ∈ logs, printable l.status = true) : ∃ S, reduceLogs acc logs = some S := by
  induction logs generalizing acc with
  | nil => exact ⟨acc, rfl⟩
  | cons l ls ih =>
    obtain ⟨k, hk⟩ := Option.isSome_iff_exists.1 (hp l (List.mem_cons_self _ _))
    obtain ⟨b, ht, hb2⟩ := tally_isCount hb k
    have hs : summarizeStep acc l = some { total := acc.total + 1, byStatus := b } := by
      simp [summarizeStep, hk, ht]
    obtain ⟨S, hS⟩ := ih { total := acc.total + 1, byStatus := b } hb2
      (fun x hx => hp x (List.mem_cons_of_mem _ hx))
    exact ⟨S, by simp [reduceLogs, hs, hS]⟩

/-- The method `logs.reduce` throws when some status cannot be converted to a
property key. -/
theorem reduceLogs_none (logs : List LogEntry) (acc : Summary)
    (hp : ∃ l ∈ logs, printable l.status = false) : reduceLogs acc logs = none := by
  induction logs generalizing acc with
  | nil =>
    obtain ⟨l, hl, _⟩ := hp
    simp at hl
  | cons l ls ih =>
    simp only [reduceLogs]
    cases hs : summarizeStep acc l with
    | none => rfl
    | some next =>
      obtain ⟨x, hx, hxp⟩ := hp
      rcases List.mem_cons.1 hx with h | h
      · subst h
        have hnone : toStr x.status = none := by
          simpa [printable] using hxp
        simp [summarizeStep, hnone] at hs
      · exact ih next ⟨x, h, hxp⟩

/-- C9, as the code has it. In every state reached from the initial one by any
sequence of requests (imports, event creations, sends, reports, voice and
email callbacks), and for every event id: when the status of every ledger
record of that event can be converted to a string, `summarizeEvent(eventId)`
returns and its total is the number of ledger records whose `eventId` is that
id; when the status of some record of the event cannot be converted,
`summarizeEvent(eventId)` throws and returns no total. -/
theorem summary_total_counts_printable_records (O : Oracle) (requests : List Request)
    (eventId : String) :
    ((∀ log ∈ (run O State.init requests).messageLog,
        log.eventId = eventId → printable log.status = true) →
      ∃ S, summarizeEvent (run O State.init requests).messageLog eventId = some S ∧
        S.total = ((run O State.init requests).messageLog.filter
          (fun log => decide (log.eventId = eventId))).length) ∧
    ((∃ log ∈ (run O State.init requests).messageLog,
        log.eventId = eventId ∧ printable log.status = false) →
      summarizeEvent (run O State.init requests).messageLog eventId = none) := by
  have hfilter : (run O State.init requests).messageLog.filter
        (fun log => log.eventId == eventId)
      = (run O State.init requests).messageLog.filter
        (fun log => decide (log.eventId = eventId)) := by
    congr 1
  constructor
  · intro hp
    obtain ⟨S, hS⟩ := reduceLogs_some
      ((run O State.init requests).messageLog.filter (fun log => log.eventId == eventId))
      { total := 0, byStatus := [] } (by simp)
      (fun l hl => by
        rw [List.mem_filter] at hl
        exact hp l hl.1 (by simpa using hl.2))
    refine ⟨S, hS, ?_⟩
    have := reduceLogs_total _ _ _ hS
    rw [this, hfilter]
    simp
  · intro hp
    obtain ⟨l, hl, he, hlp⟩ := hp
    exact reduceLogs_none _ _ ⟨l, List.mem_filter.2 ⟨hl, by simpa using he⟩, hlp⟩

theorem summary_total_counts_printable_records_witness :
    (∀ log ∈ (run sampleOracle State.init (unprintableRequests.take 3)).messageLog,
        log.eventId = "u2" → printable log.status = true) ∧
      ((run sampleOracle State.init (unprintableRequests.take 3)).messageLog.filter
        (fun log => decide (log.eventId = "u2"))).length = 4 ∧
      (∃ log ∈ (run sampleOracle State.init unprintableRequests).messageLog,
        log.eventId = "u2" ∧ printable log.status = false) ∧
      (∃ S, summarizeEvent (run sampleOracle State.init (unprintableRequests.take 3)).messageLog
          "u2" = some S ∧
        S.total = ((run sampleOracle State.init (unprintableRequests.take 3)).messageLog.filter
          (fun log => decide (log.eventId = "u2"))).length) ∧
      summarizeEvent (run sampleOracle State.init unprintableRequests).messageLog "u2" = none :=
  ⟨by decide, by decide, by decide,
    (summary_total_counts_printable_records sampleOracle (unprintableRequests.take 3) "u2").1
      (by decide),
    (summary_total_counts_printable_records sampleOracle unprintableRequests "u2").2
      (by decide)⟩

/-- C9, counterexample. The state reached by importing contact A and contact
B, creating the event of the scenario, sending it once and answering the voice
callback whose status is an object with an own property `toString` that is not
a function holds four records of the event `u2`, yet `summarizeEvent` has no
total for it: converting that status to a property key throws, and the report
of the event is answered with status 500. -/
theorem unprintable_status_has_no_total :
    ((run sampleOracle State.init unprintableRequests).messageLog.filter
        (fun log => decide (log.eventId = "u2"))).length = 4 ∧
      ((run sampleOracle State.init unprintableRequests).messageLog.map
        (fun log => log.status)) =
        [str "queued", unprintableStatus, str "queued", str "queued"] ∧
      summarizeEvent (run sampleOracle State.init unprintableRequests).messageLog "u2" = none ∧
      eventReport (run sampleOracle State.init unprintableRequests) "u2" = serverError := by
  decide

theorem split_of_find {p : LogEntry → Bool} {log : List LogEntry} {entry : LogEntry}
    (h : log.find? p = some entry) :
    ∃ pre post, log = pre ++ entry :: post ∧ (∀ x ∈ pre, p x = false) ∧ p entry = true := by
  induction log with
  | nil => simp at h
  | cons l ls ih =>
    by_cases hl : p l = true
    · rw [List.find?_cons_of_pos _ hl] at h
      cases h
      exact ⟨[], ls, rfl, by simp, hl⟩
    · rw [List.find?_cons_of_neg _ hl] at h
      obtain ⟨pre, post, h1, h2, h3⟩ := ih h
      refine ⟨l :: pre, post, by rw [h1]; rfl, ?_, h3⟩
      intro x hx
      rcases List.mem_cons.1 hx with rfl | hx
      · simpa using hl
      · exact h2 x hx

theorem modifyFirst_split {p : LogEntry → Bool} (f : LogEntry → LogEntry)
    {pre post : List LogEntry} {entry : LogEntry}
    (h1 : ∀ x ∈ pre, p x = false) (h2 : p entry = true) :
    modifyFirst p f (pre ++ entry :: post) = pre ++ f entry :: post := by
  induction pre with
  | nil => simp [modifyFirst, h2]
  | cons l ls ih =>
    have hl : p l = false := h1 l (List.mem_cons_self _ _)
    have := ih (fun x hx => h1 x (List.mem_cons_of_mem _ hx))
    simp [modifyFirst, hl, this]

theorem find_of_split {p : LogEntry → Bool} {pre post : List LogEntry} {entry : LogEntry}
    (h1 : ∀ x ∈ pre, p x = false) (h2 : p entry = true) :
    (pre ++ entry :: post).find? p = some entry := by
  induction pre with
  | nil => simp [h2]
  | cons l ls ih =>
    have hl : ¬ p l = true := by simp [h1 l (List.mem_cons_self _ _)]
    rw [List.cons_append, List.find?_cons_of_neg _ hl]
    exact ih (fun x hx => h1 x (List.mem_cons_of_mem _ hx))

theorem twilioCallback_found (O : Oracle) (s : State) (b : Props) (entry : LogEntry)
    (h : s.messageLog.find? (matchesProvider (getProp b "providerMessageId")) = some entry) :
    twilioCallback O s (obj b) =
      ({ s with
          messageLog := modifyFirst (matchesProvider (getProp b "providerMessageId"))
            (fun log => { log with
              status := orElse (getProp b "status") log.status
              answered := coalesce (getProp b "answered") log.answered
              updatedAt := O.clock s.clockReads }) s.messageLog
          clockReads := s.clockReads + 1 },
        ⟨200, Body.ok⟩) := by
  simp [twilioCallback, member, h]

theorem emailCallback_found (O : Oracle) (s : State) (b : Props) (entry : LogEntry)
    (h : s.messageLog.find? (matchesProvider (getProp b "providerMessageId")) = some entry) :
    emailCallback O s (obj b) =
      ({ s with
          messageLog := modifyFirst (matchesProvider (getProp b "providerMessageId"))
            (fun log => { log with
              status := orElse (getProp b "status") log.status
              updatedAt := O.clock s.clockReads }) s.messageLog
          clockReads := s.clockReads + 1 },
        ⟨200, Body.ok⟩) := by
  simp [emailCallback, member, h]

/-- One callback, voice or email, on a ledger split at the entry it finds:
the answer is 200, the entry is rewritten where it stands with the status
`status || log.status` and the same provider message id and id. -/
theorem callback_step (O : Oracle) (s : State) (b : Props) (r : Request)
    (hr : r = Request.twilioCallback (obj b) ∨ r = Request.emailCallback (obj b))
    (pre post : List LogEntry) (entry : LogEntry)
    (hs : s.messageLog = pre ++ entry :: post)
    (hpre : ∀ x ∈ pre, matchesProvider (getProp b "providerMessageId") x = false)
    (hent : matchesProvider (getProp b "providerMessageId") entry = true) :
    (handle O s r).2 = ⟨200, Body.ok⟩ ∧
    ∃ entry', (handle O s r).1.messageLog = pre ++ entry' :: post ∧
      entry'.status = orElse (getProp b "status") entry.status ∧
      entry'.providerMessageId = entry.providerMessageId ∧ entry'.id = entry.id ∧
      entry'.eventId = entry.eventId ∧ entry'.recipientId = entry.recipientId ∧
      entry'.channel = entry.channel := by
  have hfind : s.messageLog.find? (matchesProvider (getProp b "providerMessageId"))
      = some entry := by
    rw [hs]; exact find_of_split hpre hent
  rcases hr with rfl | rfl
  · simp only [handle, twilioCallback_found O s b entry hfind]
    refine ⟨trivial, { entry with
        status := orElse (getProp b "status") entry.status
        answered := coalesce (getProp b "answered") entry.answered
        updatedAt := O.clock s.clockReads }, ?_, rfl, rfl, rfl, rfl, rfl, rfl⟩
    rw [hs, modifyFirst_split _ hpre hent]
  · simp only [handle, emailCallback_found O s b entry hfind]
    refine ⟨trivial, { entry with
        status := orElse (getProp b "status") entry.status
        updatedAt := O.clock s.clockReads }, ?_, rfl, rfl, rfl, rfl, rfl, rfl⟩
    rw [hs, modifyFirst_split _ hpre hent]

/-- C10. On a ledger that holds a record with provider message id `p`, a
status callback for `p` with `s1` followed by a status callback for `p` with
`s2` leaves that record, where it stands in the ledger, with status `s2`. Each
callback is the voice one or the email one, with any further fields. A status
is a value the callback supplies, so `s2` is truthy (the handlers keep the old
status on an absent or empty one); `s1` is arbitrary and need not differ from
`s2`. Both callbacks answer 200. -/
theorem last_status_wins (O : Oracle) (s : State) (p : JVal) (entry : LogEntry)
    (hfind : s.messageLog.find? (matchesProvider p) = some entry)
    (b1 b2 : Props) (s1 s2 : JVal)
    (hp1 : getProp b1 "providerMessageId" = p) (_hs1 : getProp b1 "status" = s1)
    (hp2 : getProp b2 "providerMessageId" = p) (hs2 : getProp b2 "status" = s2)
    (ht2 : truthy s2 = true) (r1 r2 : Request)
    (hr1 : r1 = Request.twilioCallback (obj b1) ∨ r1 = Request.emailCallback (obj b1))
    (hr2 : r2 = Request.twilioCallback (obj b2) ∨ r2 = Request.emailCallback (obj b2)) :
    (handle O s r1).2 = ⟨200, Body.ok⟩ ∧
      (handle O (handle O s r1).1 r2).2 = ⟨200, Body.ok⟩ ∧
      ∃ pre post entry', s.messageLog = pre ++ entry :: post ∧
        (∀ x ∈ pre, matchesProvider p x = false) ∧
        (run O s [r1, r2]).messageLog = pre ++ entry' :: post ∧
        entry'.status = s2 ∧ entry'.providerMessageId = entry.providerMessageId ∧
        entry'.id = entry.id := by
  obtain ⟨pre, post, hsplit, hpre, hent⟩ := split_of_find hfind
  subst hp1
  obtain ⟨hok1, e1, hlog1, _, hpm1, hid1, _, _, _⟩ :=
    callback_step O s b1 r1 hr1 pre post entry hsplit hpre hent
  have hent1 : matchesProvider (getProp b2 "providerMessageId") e1 = true := by
    rw [hp2]
    simpa [matchesProvider, hpm1] using hent
  obtain ⟨hok2, e2, hlog2, hst2, hpm2, hid2, _, _, _⟩ :=
    callback_step O (handle O s r1).1 b2 r2 hr2 pre post e1 hlog1 (by rw [hp2]; exact hpre) hent1
  refine ⟨hok1, hok2, pre, post, e2, hsplit, hpre, ?_, ?_, hpm2.trans hpm1, hid2.trans hid1⟩
  · simpa [run] using hlog2
  · rw [hst2, hs2]
    simp [orElse, ht2]

theorem last_status_wins_witness :
    scenarioSent.messageLog.find? (matchesProvider (str "voice-u4")) = some scenarioVoiceEntry ∧
      truthy (str "delivered") = true ∧
      ((run sampleOracle scenarioSent
        [Request.twilioCallback (obj [("providerMessageId", str "voice-u4"),
            ("status", str "sent"), ("answered", JVal.bool true)]),
          Request.emailCallback (obj [("providerMessageId", str "voice-u4"),
            ("status", str "delivered")])]).messageLog.map (fun l => l.status)
        = [str "queued", str "delivered", str "queued", str "queued"]) ∧
      ∃ pre post entry', scenarioSent.messageLog = pre ++ scenarioVoiceEntry :: post ∧
        (∀ x ∈ pre, matchesProvider (str "voice-u4") x = false) ∧
        (run sampleOracle scenarioSent
          [Request.twilioCallback (obj [("providerMessageId", str "voice-u4"),
              ("status", str "sent"), ("answered", JVal.bool true)]),
            Request.emailCallback (obj [("providerMessageId", str "voice-u4"),
              ("status", str "delivered")])]).messageLog = pre ++ entry' :: post ∧
        entry'.status = str "delivered" ∧
        entry'.providerMessageId = scenarioVoiceEntry.providerMessageId ∧
        entry'.id = scenarioVoiceEntry.id :=
  ⟨by decide, by decide, by decide,
    (last_status_wins sampleOracle scenarioSent (str "voice-u4") scenarioVoiceEntry (by decide)
      [("providerMessageId", str "voice-u4"), ("status", str "sent"),
        ("answered", JVal.bool true)]
      [("providerMessageId", str "voice-u4"), ("status", str "delivered")]
      (str "sent") (str "delivered") (by decide) (by decide) (by decide) (by decide) (by decide)
      _ _ (Or.inl rfl) (Or.inr rfl)).2.2⟩
/-! ## Provider callbacks -/

theorem find_none_of_all_false {p : LogEntry → Bool} {log : List LogEntry}
    (h : ∀ l ∈ log, p l = false) : log.find? p = none := by
  rw [List.find?_eq_none]
  intro l hl
  simp [h l hl]

/-- C11. A callback, voice or email, whose `providerMessageId` matches no
record of the ledger is answered 404 with the error `Log not found`, and the
state (the ledger with every record and field, the directory, the registry) is
exactly what it was. -/
theorem callback_unknown_provider (O : Oracle) (s : State) (body pid : JVal) (r : Request)
    (hr : r = Request.twilioCallback body ∨ r = Request.emailCallback body)
    (hm : member body "providerMessageId" = some pid)
    (hno : ∀ l ∈ s.messageLog, matchesProvider pid l = false) :
    handle O s r = (s, ⟨404, Body.error "Log not found"⟩) := by
  have hnone := find_none_of_all_false hno
  cases body with
  | obj b =>
    simp only [member, Option.some.injEq] at hm
    rcases hr with rfl | rfl
    · simp [handle, twilioCallback, member, hm, hnone]
    · simp [handle, emailCallback, member, hm, hnone]
  | undefined => simp [member] at hm
  | null => simp [member] at hm
  | _ =>
    simp only [member, Option.some.injEq] at hm
    subst hm
    rcases hr with rfl | rfl
    · simp [handle, twilioCallback, member, hnone]
    · simp [handle, emailCallback, member, hnone]

theorem callback_unknown_provider_witness :
    member (obj [("providerMessageId", str "voice-u9"), ("status", str "sent")])
        "providerMessageId" = some (str "voice-u9") ∧
      (∀ l ∈ scenarioSent.messageLog, matchesProvider (str "voice-u9") l = false) ∧
      scenarioSent.messageLog.length = 4 ∧
      handle sampleOracle scenarioSent
          (Request.twilioCallback
            (obj [("providerMessageId", str "voice-u9"), ("status", str "sent")]))
        = (scenarioSent, ⟨404, Body.error "Log not found"⟩) :=
  ⟨by decide, by decide, by decide,
    callback_unknown_provider sampleOracle scenarioSent
      (obj [("providerMessageId", str "voice-u9"), ("status", str "sent")]) (str "voice-u9")
      _ (Or.inl rfl) (by decide) (by decide)⟩

/-- C12. For the record a callback matches by `providerMessageId`: the status
becomes the supplied status when one is provided (a truthy value) and stays
when none is (an absent or empty one); in the voice callback `answered`
becomes the supplied value when it is not absent (`true`, `false` or any
value other than `null` and `undefined`) and stays when it is absent. The
email callback treats the status the same way. -/
theorem callback_overwrites (O : Oracle) (s : State) (b : Props) (entry : LogEntry)
    (hfind : s.messageLog.find? (matchesProvider (getProp b "providerMessageId")) = some entry) :
    ∃ pre post voiced mailed, s.messageLog = pre ++ entry :: post ∧
      (∀ x ∈ pre, matchesProvider (getProp b "providerMessageId") x = false) ∧
      (twilioCallback O s (obj b)).1.messageLog = pre ++ voiced :: post ∧
      (emailCallback O s (obj b)).1.messageLog = pre ++ mailed :: post ∧
      (truthy (getProp b "status") = true →
        voiced.status = getProp b "status" ∧ mailed.status = getProp b "status") ∧
      (truthy (getProp b "status") = false →
        voiced.status = entry.status ∧ mailed.status = entry.status) ∧
      (isNullish (getProp b "answered") = false → voiced.answered = getProp b "answered") ∧
      (isNullish (getProp b "answered") = true → voiced.answered = entry.answered) := by
  obtain ⟨pre, post, hsplit, hpre, hent⟩ := split_of_find hfind
  refine ⟨pre, post,
    { entry with
      status := orElse (getProp b "status") entry.status
      answered := coalesce (getProp b "answered") entry.answered
      updatedAt := O.clock s.clockReads },
    { entry with
      status := orElse (getProp b "status") entry.status
      updatedAt := O.clock s.clockReads }, hsplit, hpre, ?_, ?_, ?_, ?_, ?_, ?_⟩
  · rw [twilioCallback_found O s b entry hfind]
    simp only
    rw [hsplit, modifyFirst_split _ hpre hent]
  · rw [emailCallback_found O s b entry hfind]
    simp only
    rw [hsplit, modifyFirst_split _ hpre hent]
  · intro h; simp [orElse, h]
  · intro h; simp [orElse, h]
  · intro h; simp [coalesce, h]
  · intro h; simp [coalesce, h]

theorem callback_overwrites_witness :
    scenarioSent.messageLog.find?
        (matchesProvider (getProp sampleCallbackBody "providerMessageId"))
        = some scenarioVoiceEntry ∧
      (twilioCallback sampleOracle scenarioSent
        (obj sampleCallbackBody)).1.messageLog.map (fun l => (l.status, l.answered))
        = [(str "queued", null), (str "answered", JVal.bool false), (str "queued", null),
            (str "queued", null)] ∧
      ∃ pre post voiced mailed, scenarioSent.messageLog = pre ++ scenarioVoiceEntry :: post ∧
        (∀ x ∈ pre, matchesProvider (getProp sampleCallbackBody "providerMessageId") x
            = false) ∧
        (twilioCallback sampleOracle scenarioSent
          (obj sampleCallbackBody)).1.messageLog = pre ++ voiced :: post ∧
        (emailCallback sampleOracle scenarioSent
          (obj sampleCallbackBody)).1.messageLog = pre ++ mailed :: post ∧
        (truthy (getProp sampleCallbackBody "status") = true →
          voiced.status = getProp sampleCallbackBody "status" ∧
          mailed.status = getProp sampleCallbackBody "status") ∧
        (truthy (getProp sampleCallbackBody "status") = false →
          voiced.status = scenarioVoiceEntry.status ∧
          mailed.status = scenarioVoiceEntry.status) ∧
        (isNullish (getProp sampleCallbackBody "answered") = false →
          voiced.answered = getProp sampleCallbackBody "answered") ∧
        (isNullish (getProp sampleCallbackBody "answered") = true →
          voiced.answered = scenarioVoiceEntry.answered) :=
  ⟨by decide, by decide,
    callback_overwrites sampleOracle scenarioSent
      sampleCallbackBody scenarioVoiceEntry (by decide)⟩

theorem matchesProvider_undefined (l : LogEntry) : matchesProvider undefined l = false := rfl

/-- A callback that is answered 200 had an object for a body and found a
record under its `providerMessageId`. -/
theorem callback_success_found (O : Oracle) (s : State) (body : JVal) (r : Request)
    (hr : r = Request.twilioCallback body ∨ r = Request.emailCallback body)
    (hok : (handle O s r).2 = ⟨200, Body.ok⟩) :
    ∃ b entry, body = obj b ∧
      s.messageLog.find? (matchesProvider (getProp b "providerMessageId")) = some entry := by
  have hnone : s.messageLog.find? (matchesProvider undefined) = none :=
    find_none_of_all_false (fun l _ => matchesProvider_undefined l)
  cases body with
  | obj b =>
    cases hf : s.messageLog.find? (matchesProvider (getProp b "providerMessageId")) with
    | some entry => exact ⟨b, entry, rfl, hf⟩
    | none =>
      rcases hr with rfl | rfl
      · simp [handle, twilioCallback, member, hf] at hok
      · simp [handle, emailCallback, member, hf] at hok
  | undefined =>
    rcases hr with rfl | rfl
    · simp [handle, twilioCallback, member, serverError] at hok
    · simp [handle, emailCallback, member, serverError] at hok
  | null =>
    rcases hr with rfl | rfl
    · simp [handle, twilioCallback, member, serverError] at hok
    · simp [handle, emailCallback, member, serverError] at hok
  | _ =>
    rcases hr with rfl | rfl
    · simp [handle, twilioCallback, member, hnone] at hok
    · simp [handle, emailCallback, member, hnone] at hok

theorem matchesProvider_eq {p : JVal} {entry : LogEntry}
    (h : matchesProvider p entry = true) : p = str entry.providerMessageId := by
  unfold matchesProvider at h
  cases p with
  | str q =>
    rw [strictEq_str_str] at h
    have : entry.providerMessageId = q := by simpa using h
    rw [this]
  | _ => simp [strictEq] at h

theorem matchesProvider_ne {entry x : LogEntry}
    (h : matchesProvider (str entry.providerMessageId) x = false) :
    x.providerMessageId ≠ entry.providerMessageId := by
  unfold matchesProvider at h
  rw [strictEq_str_str] at h
  simpa using h

/-- C13. A successful callback, voice or email, rewrites one record where it
stands, the first record of the ledger whose providerMessageId is the one the
callback names: its providerMessageId, id, eventId, recipientId, channel,
createdAt and content are unchanged, every other record is the same record at
the same place, the number of records is the same, and the email callback
leaves `answered` unchanged too. The directory and the registry are
untouched. -/
theorem callback_frame (O : Oracle) (s : State) (body : JVal) (r : Request)
    (hr : r = Request.twilioCallback body ∨ r = Request.emailCallback body)
    (hok : (handle O s r).2 = ⟨200, Body.ok⟩) :
    ∃ pre post entry entry', s.messageLog = pre ++ entry :: post ∧
      member body "providerMessageId" = some (str entry.providerMessageId) ∧
      (∀ x ∈ pre, x.providerMessageId ≠ entry.providerMessageId) ∧
      (handle O s r).1.messageLog = pre ++ entry' :: post ∧
      entry'.providerMessageId = entry.providerMessageId ∧ entry'.id = entry.id ∧
      entry'.eventId = entry.eventId ∧ entry'.recipientId = entry.recipientId ∧
      entry'.channel = entry.channel ∧ entry'.createdAt = entry.createdAt ∧
      entry'.content = entry.content ∧
      (r = Request.emailCallback body → entry'.answered = entry.answered) ∧
      (handle O s r).1.messageLog.length = s.messageLog.length ∧
      (handle O s r).1.contacts = s.contacts ∧ (handle O s r).1.events = s.events := by
  obtain ⟨b, entry, rfl, hfind⟩ := callback_success_found O s body r hr hok
  obtain ⟨pre, post, hsplit, hpre, hent⟩ := split_of_find hfind
  have hp : getProp b "providerMessageId" = str entry.providerMessageId :=
    matchesProvider_eq hent
  have hmem : member (obj b) "providerMessageId" = some (str entry.providerMessageId) := by
    rw [← hp]
    rfl
  have hpre2 : ∀ x ∈ pre, x.providerMessageId ≠ entry.providerMessageId := by
    intro x hx
    have := hpre x hx
    rw [hp] at this
    exact matchesProvider_ne this
  rcases hr with rfl | rfl
  · refine ⟨pre, post, entry,
      { entry with
        status := orElse (getProp b "status") entry.status
        answered := coalesce (getProp b "answered") entry.answered
        updatedAt := O.clock s.clockReads }, hsplit, hmem, hpre2, ?_, rfl, rfl, rfl, rfl, rfl,
      rfl, rfl, ?_, ?_, ?_, ?_⟩
    · simp only [handle, twilioCallback_found O s b entry hfind]
      rw [hsplit, modifyFirst_split _ hpre hent]
    · intro h; cases h
    · simp only [handle, twilioCallback_found O s b entry hfind]
      rw [hsplit, modifyFirst_split _ hpre hent]
      simp
    · simp only [handle, twilioCallback_found O s b entry hfind]
    · simp only [handle, twilioCallback_found O s b entry hfind]
  · refine ⟨pre, post, entry,
      { entry with
        status := orElse (getProp b "status") entry.status
        updatedAt := O.clock s.clockReads }, hsplit, hmem, hpre2, ?_, rfl, rfl, rfl, rfl, rfl,
      rfl, rfl, ?_, ?_, ?_, ?_⟩
    · simp only [handle, emailCallback_found O s b entry hfind]
      rw [hsplit, modifyFirst_split _ hpre hent]
    · intro _; rfl
    · simp only [handle, emailCallback_found O s b entry hfind]
      rw [hsplit, modifyFirst_split _ hpre hent]
      simp
    · simp only [handle, emailCallback_found O s b entry hfind]
    · simp only [handle, emailCallback_found O s b entry hfind]

theorem callback_frame_witness :
    (handle sampleOracle scenarioSent (Request.emailCallback (obj sampleCallbackBody))).2
        = ⟨200, Body.ok⟩ ∧
      ∃ pre post entry entry', scenarioSent.messageLog = pre ++ entry :: post ∧
        member (obj sampleCallbackBody) "providerMessageId"
          = some (str entry.providerMessageId) ∧
        (∀ x ∈ pre, x.providerMessageId ≠ entry.providerMessageId) ∧
        (handle sampleOracle scenarioSent
          (Request.emailCallback (obj sampleCallbackBody))).1.messageLog
            = pre ++ entry' :: post ∧
        entry'.providerMessageId = entry.providerMessageId ∧ entry'.id = entry.id ∧
        entry'.eventId = entry.eventId ∧ entry'.recipientId = entry.recipientId ∧
        entry'.channel = entry.channel ∧ entry'.createdAt = entry.createdAt ∧
        entry'.content = entry.content ∧
        (Request.emailCallback (obj sampleCallbackBody)
            = Request.emailCallback (obj sampleCallbackBody) →
          entry'.answered = entry.answered) ∧
        (handle sampleOracle scenarioSent
          (Request.emailCallback (obj sampleCallbackBody))).1.messageLog.length
            = scenarioSent.messageLog.length ∧
        (handle sampleOracle scenarioSent
          (Request.emailCallback (obj sampleCallbackBody))).1.contacts
            = scenarioSent.contacts ∧
        (handle sampleOracle scenarioSent
          (Request.emailCallback (obj sampleCallbackBody))).1.events = scenarioSent.events :=
  ⟨by decide,
    callback_frame sampleOracle scenarioSent (obj sampleCallbackBody) _ (Or.inr rfl)
      (by decide)⟩


/-! ## Audience -/

theorem filterThrowing_total {α : Type} (p : α → Option Bool) (q : α → Bool) (xs : List α)
    (h : ∀ x ∈ xs, p x = some (q x)) : filterThrowing p xs = some (xs.filter q) := by
  induction xs with
  | nil => rfl
  | cons x xs ih =>
    have hx := h x (List.mem_cons_self _ _)
    have ih2 := ih (fun y hy => h y (List.mem_cons_of_mem _ hy))
    by_cases hq : q x = true <;> simp [filterThrowing, hx, ih2, List.filter_cons, hq]

theorem memberIsTrue_nullish {v : JVal} (h : isNullish v = true) (key : String) :
    memberIsTrue v key = false := by
  cases v <;> simp_all [isNullish, memberIsTrue]

/-- The test the callback of `filterAudience` applies for a filter object
whose flag is absent or a non-empty string. -/
theorem audienceMatch_named (fs contact : Props)
    (h : absentOrName (getProp fs "flag") = true) :
    audienceMatch (obj fs) contact = some
      ((!truthy (getProp fs "school")
          || strictEq (getProp contact "school") (getProp fs "school"))
        && (!truthy (getProp fs "grade")
          || strictEq (getProp contact "grade") (getProp fs "grade"))
        && (!truthy (getProp fs "busRoute")
          || strictEq (getProp contact "busRoute") (getProp fs "busRoute"))
        && (isAbsent (getProp fs "flag") || flagHolds (getProp fs "flag") contact)) := by
  simp only [audienceMatch, member]
  cases hflag : getProp fs "flag" with
  | undefined =>
    have hu : truthy undefined = false := rfl
    simp only [hu, isAbsent]
    cases truthy (getProp fs "school") <;> cases truthy (getProp fs "grade") <;>
      cases truthy (getProp fs "busRoute") <;>
      cases strictEq (getProp contact "school") (getProp fs "school") <;>
      cases strictEq (getProp contact "grade") (getProp fs "grade") <;>
      cases strictEq (getProp contact "busRoute") (getProp fs "busRoute") <;> simp
  | str f =>
    have hne : f ≠ "" := by
      rw [hflag] at h
      simpa [absentOrName] using h
    have ht : truthy (str f) = true := by simp [truthy, hne]
    simp only [ht, isAbsent, flagHolds, toStr]
    cases hn : isNullish (getProp contact "flags")
    · cases truthy (getProp fs "school") <;> cases truthy (getProp fs "grade") <;>
        cases truthy (getProp fs "busRoute") <;>
        cases strictEq (getProp contact "school") (getProp fs "school") <;>
        cases strictEq (getProp contact "grade") (getProp fs "grade") <;>
        cases strictEq (getProp contact "busRoute") (getProp fs "busRoute") <;> simp
    · rw [memberIsTrue_nullish hn]
      cases truthy (getProp fs "school") <;> cases truthy (getProp fs "grade") <;>
        cases truthy (getProp fs "busRoute") <;>
        cases strictEq (getProp contact "school") (getProp fs "school") <;>
        cases strictEq (getProp contact "grade") (getProp fs "grade") <;>
        cases strictEq (getProp contact "busRoute") (getProp fs "busRoute") <;> simp
  | null => rw [hflag] at h; simp [absentOrName] at h
  | bool b => rw [hflag] at h; simp [absentOrName] at h
  | num n => rw [hflag] at h; simp [absentOrName] at h
  | arr items => rw [hflag] at h; simp [absentOrName] at h
  | obj ps => rw [hflag] at h; simp [absentOrName] at h

theorem absentOrTruthy_rule {v : JVal} (h : absentOrTruthy v = true) (b : Bool) :
    (!truthy v || b) = (isAbsent v || b) := by
  cases v <;> simp_all [absentOrTruthy, truthy, isAbsent]

theorem audienceMatch_plain (fs contact : Props) (h : plainFilter fs = true) :
    audienceMatch (obj fs) contact = some (inAudience fs contact) := by
  simp only [plainFilter, Bool.and_eq_true] at h
  obtain ⟨⟨⟨h1, h2⟩, h3⟩, h4⟩ := h
  rw [audienceMatch_named fs contact h4, absentOrTruthy_rule h1, absentOrTruthy_rule h2,
    absentOrTruthy_rule h3]
  rfl

/-- What `filterAudience` returns for a filter object whose flag is absent or
a non-empty string: the contacts of the directory, in insertion order, that
pass the test of the callback. -/
theorem filterAudience_named (s : State) (fs : Props)
    (h : absentOrName (getProp fs "flag") = true) :
    filterAudience s (obj fs) = some ((s.contacts.map Prod.snd).filter (fun contact =>
      (!truthy (getProp fs "school")
          || strictEq (getProp contact "school") (getProp fs "school"))
        && (!truthy (getProp fs "grade")
          || strictEq (getProp contact "grade") (getProp fs "grade"))
        && (!truthy (getProp fs "busRoute")
          || strictEq (getProp contact "busRoute") (getProp fs "busRoute"))
        && (isAbsent (getProp fs "flag") || flagHolds (getProp fs "flag") contact))) := by
  have hne : (obj fs = undefined) = False := by simp
  simp only [filterAudience, hne, if_false]
  exact filterThrowing_total _ _ _ (fun c _ => audienceMatch_named fs c h)

/-- C14, as the code has it. For every directory and every filter whose school, grade
and busRoute are each absent or truthy and whose flag is absent or a non-empty
string, `filterAudience` returns, in directory insertion order, exactly the
contacts whose school, grade and busRoute equal the value of the filter for
every one of these fields that is present, and whose flags hold `true` under
the flag the filter names, if it names one; an absent field does not restrict
the result, and a filter with no fields (or no filter) returns the entire
directory. -/
theorem audience_is_filtered_directory (s : State) (fs : Props)
    (h : plainFilter fs = true) :
    filterAudience s (obj fs) = some ((s.contacts.map Prod.snd).filter (inAudience fs)) ∧
      filterAudience s (obj []) = some (s.contacts.map Prod.snd) ∧
      filterAudience s undefined = some (s.contacts.map Prod.snd) := by
  have hne : (obj fs = undefined) = False := by simp
  refine ⟨?_, ?_, ?_⟩
  · simp only [filterAudience, hne, if_false]
    exact filterThrowing_total _ _ _ (fun c _ => audienceMatch_plain fs c h)
  · rw [filterAudience_named s [] rfl]
    simp [getProp, lookup, truthy, isAbsent]
  · have : filterAudience s undefined = filterAudience s (obj []) := by
      simp [filterAudience]
    rw [this, filterAudience_named s [] rfl]
    simp [getProp, lookup, truthy, isAbsent]

theorem audience_is_filtered_directory_witness :
    plainFilter [("school", str "Lincoln"), ("grade", num 5), ("flag", str "vip")] = true ∧
      (gradeDirectory.contacts.map Prod.snd).filter
          (inAudience [("school", str "Lincoln"), ("grade", num 5), ("flag", str "vip")])
        = [contactGradeFive] ∧
      (filterAudience gradeDirectory
          (obj [("school", str "Lincoln"), ("grade", num 5), ("flag", str "vip")])
          = some ((gradeDirectory.contacts.map Prod.snd).filter
              (inAudience [("school", str "Lincoln"), ("grade", num 5), ("flag", str "vip")])) ∧
        filterAudience gradeDirectory (obj [])
          = some (gradeDirectory.contacts.map Prod.snd) ∧
        filterAudience gradeDirectory undefined
          = some (gradeDirectory.contacts.map Prod.snd)) :=
  ⟨by decide, by decide,
    audience_is_filtered_directory gradeDirectory
      [("school", str "Lincoln"), ("grade", num 5), ("flag", str "vip")] (by decide)⟩

/-- C14, counterexample. The filter `{grade: 0}` has the field grade, yet
`filterAudience` returns the whole directory, with a contact of grade 5; the
contacts whose grade equals 0 are `contactGradeZero` alone. -/
theorem falsy_filter_field_is_ignored :
    filterAudience gradeDirectory (obj [("grade", num 0)])
        = some [contactGradeFive, contactGradeZero] ∧
      getProp contactGradeFive "grade" ≠ num 0 ∧
      (gradeDirectory.contacts.map Prod.snd).filter (inAudience [("grade", num 0)])
        = [contactGradeZero] := by
  decide

/-- C15. When the filter names a flag `f`, every contact `filterAudience`
returns holds the boolean `true` under the key `f` of its flags; a contact
with no flags, with no key `f` in its flags map, or with another value than
`true` under `f` is not returned. -/
theorem audience_flag_is_true (s : State) (fs : Props) (f : String) (result : List Props)
    (hf : getProp fs "flag" = str f) (hne : f ≠ "")
    (hres : filterAudience s (obj fs) = some result) :
    (∀ c ∈ result, memberIsTrue (getProp c "flags") f = true) ∧
      (∀ c, getProp c "flags" = undefined → c ∉ result) ∧
      (∀ c m, getProp c "flags" = obj m → lookup m f ≠ some (JVal.bool true) → c ∉ result) := by
  have hname : absentOrName (getProp fs "flag") = true := by
    rw [hf]
    simp [absentOrName, hne]
  have hall : ∀ c ∈ result, memberIsTrue (getProp c "flags") f = true := by
    intro c hc
    rw [filterAudience_named s fs hname, Option.some.injEq] at hres
    rw [← hres, List.mem_filter] at hc
    have h2 := hc.2
    simp only [Bool.and_eq_true] at h2
    have h3 := h2.2
    rw [hf] at h3
    simpa [isAbsent, flagHolds] using h3
  refine ⟨hall, ?_, ?_⟩
  · intro c hc hmem
    have := hall c hmem
    rw [hc] at this
    simp [memberIsTrue] at this
  · intro c m hc hm hmem
    have := hall c hmem
    rw [hc] at this
    simp only [memberIsTrue, beq_iff_eq] at this
    exact hm this

theorem audience_flag_is_true_witness :
    getProp [("flag", str "vip")] "flag" = str "vip" ∧ "vip" ≠ "" ∧
      filterAudience gradeDirectory (obj [("flag", str "vip")]) = some [contactGradeFive] ∧
      ((∀ c ∈ [contactGradeFive], memberIsTrue (getProp c "flags") "vip" = true) ∧
        (∀ c, getProp c "flags" = undefined → c ∉ [contactGradeFive]) ∧
        (∀ c m, getProp c "flags" = obj m → lookup m "vip" ≠ some (JVal.bool true) →
          c ∉ [contactGradeFive])) :=
  ⟨by decide, by decide, by decide,
    audience_flag_is_true gradeDirectory [("flag", str "vip")] "vip" [contactGradeFive]
      (by decide) (by decide) (by decide)⟩

/-! ## Content -/

theorem overrideOr_obj (t : Template) (ov : Props) (k : String) (field : Template → String) :
    overrideOr (some t) (obj ov) k field
      = some (if truthy (getProp ov k) then getProp ov k else str (field t)) := by
  unfold overrideOr
  simp only [member]
  split <;> rfl

/-- C16. For every template and every overrides object, `buildContent` returns
for channel sms (resp. voice) the sms (resp. voice) override when one is
supplied (a truthy value) and the text of the template otherwise; for channel
email it returns the pair subject, body, where the subject is the override
`emailSubject` if supplied and that of the template otherwise, and the body
is, independently, the override `emailBody` if supplied and that of the
template otherwise. Without an overrides object the template decides. -/
theorem content_override_precedence (t : Template) (ov : Props) :
    buildContent (some t) (obj ov) (str "sms")
        = some (if truthy (getProp ov "sms") then getProp ov "sms" else str t.sms) ∧
      buildContent (some t) (obj ov) (str "voice")
        = some (if truthy (getProp ov "voice") then getProp ov "voice" else str t.voice) ∧
      buildContent (some t) (obj ov) (str "email")
        = some (obj
            [("subject", if truthy (getProp ov "emailSubject") then getProp ov "emailSubject"
                else str t.emailSubject),
              ("body", if truthy (getProp ov "emailBody") then getProp ov "emailBody"
                else str t.emailBody)]) ∧
      buildContent (some t) undefined (str "sms") = some (str t.sms) ∧
      buildContent (some t) undefined (str "voice") = some (str t.voice) ∧
      buildContent (some t) undefined (str "email")
        = some (obj [("subject", str t.emailSubject), ("body", str t.emailBody)]) := by
  have hne : (obj ov = undefined) = False := by simp
  refine ⟨?_, ?_, ?_, ?_, ?_, ?_⟩
  · simp only [buildContent, hne, if_false, strictEq_str_str]
    simp [overrideOr_obj]
  · simp only [buildContent, hne, if_false, strictEq_str_str]
    simp [overrideOr_obj]
  · simp only [buildContent, hne, if_false, strictEq_str_str]
    simp [overrideOr_obj]
  · simp [buildContent, strictEq_str_str, overrideOr_obj, getProp, lookup, truthy]
  · simp [buildContent, strictEq_str_str, overrideOr_obj, getProp, lookup, truthy]
  · simp [buildContent, strictEq_str_str, overrideOr_obj, getProp, lookup, truthy]

/-! ## Contact directory -/

theorem lookup_append_single (o : Props) (k : String) (v : JVal) (k' : String) :
    lookup (o ++ [(k, v)]) k' = if k = k' then some v else lookup o k' := by
  induction o with
  | nil => simp [lookup]
  | cons p o ih =>
    obtain ⟨pk, pv⟩ := p
    rw [List.cons_append]
    simp only [lookup_cons, ih]
    by_cases h : k = k' <;> simp [h]

theorem lookup_map_replace (o : Props) (k : String) (v : JVal) (k' : String) :
    lookup (o.map (fun p => if p.1 = k then (k, v) else p)) k'
      = if k = k' then (lookup o k).map (fun _ => v) else lookup o k' := by
  induction o with
  | nil => simp [lookup]
  | cons p o ih =>
    obtain ⟨pk, pv⟩ := p
    rw [List.map_cons]
    by_cases hp : pk = k
    · rw [if_pos hp]
      simp only [lookup_cons, ih]
      by_cases h : k = k'
      · subst h
        subst hp
        cases lookup o pk <;> simp
      · have h2 : ¬ pk = k' := fun e => h (hp ▸ e)
        cases lookup o k' <;> simp [h, h2]
    · rw [if_neg hp]
      simp only [lookup_cons, ih]
      by_cases h : k = k'
      · subst h
        cases lookup o k <;> simp [hp]
      · cases lookup o k' <;> simp [h]

/-- Reading after writing: the key written holds the new value, every other
key holds what it held. -/
theorem lookup_setProp (o : Props) (k : String) (v : JVal) (k' : String) :
    lookup (setProp o k v) k' = if k = k' then some v else lookup o k' := by
  unfold setProp
  cases h : lookup o k with
  | none =>
    simp only [Option.isSome_none, Bool.false_eq_true, if_false]
    exact lookup_append_single o k v k'
  | some w =>
    simp only [Option.isSome_some, if_true]
    rw [lookup_map_replace, h]
    rfl

/-- Reading after a spread: a key of the source holds the value of the source,
every other key holds what the target held. -/
theorem lookup_assign (target src : Props) (k : String) :
    lookup (assign target src) k
      = match lookup src k with
        | some v => some v
        | none => lookup target k := by
  unfold assign
  induction src generalizing target with
  | nil => simp [lookup]
  | cons p src ih =>
    obtain ⟨pk, pv⟩ := p
    rw [List.foldl_cons, ih, lookup_cons]
    cases lookup src k with
    | some w => rfl
    | none =>
      simp only [lookup_setProp]
      by_cases h : pk = k <;> simp [h]

theorem strictEq_eq {a b : JVal} (h : strictEq a b = true) : a = b := by
  cases a <;> cases b <;> simp_all [strictEq]

/-- The entry `contacts.get(id)` returns splits the directory, and
`contacts.set(id, v)` replaces the contact of that entry where it stands. -/
theorem mapSet_of_mapGet {contacts : List (JVal × Props)} {id : JVal} {old : Props}
    (v : Props) (h : mapGet contacts id = some old) :
    ∃ pre post, contacts = pre ++ (id, old) :: post ∧
      (∀ e ∈ pre, strictEq e.1 id = false) ∧
      mapSet contacts id v = pre ++ (id, v) :: post := by
  induction contacts with
  | nil => simp [mapGet] at h
  | cons e rest ih =>
    obtain ⟨k, w⟩ := e
    by_cases hk : strictEq k id = true
    · have hkid := strictEq_eq hk
      subst hkid
      simp only [mapGet, hk, if_true, Option.some.injEq] at h
      subst h
      exact ⟨[], rest, rfl, by simp, by simp [mapSet, hk]⟩
    · simp only [mapGet, hk, Bool.false_eq_true, if_false] at h
      obtain ⟨pre, post, h1, h2, h3⟩ := ih h
      refine ⟨(k, w) :: pre, post, by rw [h1]; rfl, ?_, by simp [mapSet, hk, h3]⟩
      intro e he
      rcases List.mem_cons.1 he with rfl | he
      · simpa using hk
      · exact h2 e he

/-- C17. For an incoming contact object whose id is already in the directory,
after `upsertContact` the contact stored under that id has the incoming value
for every field present in the incoming object and the value it had before
for every other field; its id and its place in the directory are unchanged,
and so is every other contact. Events and ledger are untouched and no uuid is
drawn. -/
theorem upsert_merges (O : Oracle) (s : State) (ps : Props) (id : JVal) (old : Props)
    (hid : getProp ps "id" = id) (ht : truthy id = true)
    (hold : mapGet s.contacts id = some old) :
    ∃ s' merged pre post, upsertContact O s (obj ps) = some (s', merged) ∧
      s.contacts = pre ++ (id, old) :: post ∧
      s'.contacts = pre ++ (id, merged) :: post ∧
      (∀ e ∈ pre, strictEq e.1 id = false) ∧
      (∀ k v, lookup ps k = some v → getProp merged k = v) ∧
      (∀ k, lookup ps k = none → getProp merged k = getProp old k) ∧
      getProp merged "id" = id ∧
      s'.events = s.events ∧ s'.messageLog = s.messageLog ∧ s'.uuidCalls = s.uuidCalls := by
  obtain ⟨pre, post, hsplit, hpre, hset⟩ := mapSet_of_mapGet
    (setProp (assign (assign [] old) ps) "id" id) hold
  have hlk : ∀ k, lookup (setProp (assign (assign [] old) ps) "id" id) k
      = if "id" = k then some id
        else match lookup ps k with
          | some v => some v
          | none => lookup old k := by
    intro k
    rw [lookup_setProp, lookup_assign, lookup_assign]
    cases lookup old k <;> simp [lookup]
  have hidps : lookup ps "id" = some id := by
    unfold getProp at hid
    cases h : lookup ps "id" with
    | none => rw [h] at hid; simp at hid; subst hid; simp [truthy] at ht
    | some w => rw [h] at hid; simpa using hid
  refine ⟨{ s with
      contacts := mapSet s.contacts id (setProp (assign (assign [] old) ps) "id" id) },
    setProp (assign (assign [] old) ps) "id" id, pre, post, ?_, hsplit, ?_, hpre,
    ?_, ?_, ?_, ?_, ?_, ?_⟩
  · simp only [upsertContact, member, hid, ht, if_true, ownProps, hold, Option.getD_some]
  · simp only [hset]
  · intro k v hk
    unfold getProp
    rw [hlk]
    by_cases h : "id" = k
    · subst h
      rw [hidps] at hk
      simp only [Option.some.injEq] at hk
      simp [hk]
    · simp [h, hk]
  · intro k hk
    unfold getProp
    rw [hlk]
    have h : ¬ "id" = k := by
      intro e
      subst e
      rw [hidps] at hk
      simp at hk
    simp [h, hk]
  · unfold getProp
    rw [hlk]
    simp
  · rfl
  · rfl
  · rfl

theorem upsert_merges_witness :
    getProp incomingGradeFive "id" = str "g5" ∧ truthy (str "g5") = true ∧
      mapGet gradeDirectory.contacts (str "g5") = some contactGradeFive ∧
      (upsertContact sampleOracle gradeDirectory (obj incomingGradeFive)).map
          (fun r => r.1.contacts)
        = some [(str "g5",
            [("id", str "g5"), ("school", str "Lincoln"), ("grade", num 6),
              ("flags", obj [("vip", JVal.bool true), ("band", JVal.bool false)]),
              ("phone", str "555-6")]),
            (str "g0", contactGradeZero)] ∧
      ∃ s' merged pre post,
        upsertContact sampleOracle gradeDirectory (obj incomingGradeFive) = some (s', merged) ∧
        gradeDirectory.contacts = pre ++ (str "g5", contactGradeFive) :: post ∧
        s'.contacts = pre ++ (str "g5", merged) :: post ∧
        (∀ e ∈ pre, strictEq e.1 (str "g5") = false) ∧
        (∀ k v, lookup incomingGradeFive k = some v → getProp merged k = v) ∧
        (∀ k, lookup incomingGradeFive k = none →
          getProp merged k = getProp contactGradeFive k) ∧
        getProp merged "id" = str "g5" ∧
        s'.events = gradeDirectory.events ∧ s'.messageLog = gradeDirectory.messageLog ∧
        s'.uuidCalls = gradeDirectory.uuidCalls :=
  ⟨by decide, by decide, by decide, by decide,
    upsert_merges sampleOracle gradeDirectory incomingGradeFive (str "g5") contactGradeFive
      (by decide) (by decide) (by decide)⟩

/-! ## Event registry -/

/-- C18. An event-creation request whose `templateId` matches no template of
the catalog is answered 400 with the error `Unknown templateId` and leaves the
state, the event registry in particular, as it was; a request whose
`templateId` is in the catalog is answered 201 and adds exactly one event,
which carries that `templateId`, at the end of the registry. -/
theorem createEvent_checks_template (O : Oracle) (s : State) (body templateId : JVal)
    (hm : member body "templateId" = some templateId) :
    ((∀ t ∈ templates, strictEq (str t.id) templateId = false) →
        createEvent O s body = (s, ⟨400, Body.error "Unknown templateId"⟩)) ∧
      ((∃ t ∈ templates, strictEq (str t.id) templateId = true) →
        ∃ e, (createEvent O s body).2 = ⟨201, Body.event e⟩ ∧ e.templateId = templateId ∧
          (createEvent O s body).1.events = s.events ++ [e] ∧
          (createEvent O s body).1.contacts = s.contacts ∧
          (createEvent O s body).1.messageLog = s.messageLog) := by
  have hsome : ∀ k, ∃ v, member body k = some v := by
    intro k
    cases body <;> simp_all [member]
  obtain ⟨audience, ha⟩ := hsome "audience"
  obtain ⟨overrides, ho⟩ := hsome "overrides"
  obtain ⟨scheduledFor, hs⟩ := hsome "scheduledFor"
  constructor
  · intro hno
    have hnone : templates.find? (fun item => strictEq (str item.id) templateId) = none := by
      rw [List.find?_eq_none]
      intro t ht
      simp [hno t ht]
    simp only [createEvent, hm, ha, ho, hs, hnone]
  · intro hyes
    obtain ⟨t, ht, hst⟩ := hyes
    cases hf : templates.find? (fun item => strictEq (str item.id) templateId) with
    | none =>
      rw [List.find?_eq_none] at hf
      exact absurd hst (by simpa using hf t ht)
    | some t' =>
      simp only [createEvent, hm, ha, ho, hs, hf]
      exact ⟨_, rfl, rfl, by split <;> rfl, by split <;> rfl, by split <;> rfl⟩

theorem createEvent_checks_template_witness :
    member scenarioEventBody "templateId" = some (str "snow-day") ∧
      (∃ t ∈ templates, strictEq (str t.id) (str "snow-day") = true) ∧
      (createEvent sampleOracle State.init
        (obj [("templateId", str "fire-drill")])) =
          (State.init, ⟨400, Body.error "Unknown templateId"⟩) ∧
      ∃ e, (createEvent sampleOracle State.init scenarioEventBody).2 = ⟨201, Body.event e⟩ ∧
        e.templateId = str "snow-day" ∧
        (createEvent sampleOracle State.init scenarioEventBody).1.events
          = State.init.events ++ [e] ∧
        (createEvent sampleOracle State.init scenarioEventBody).1.contacts
          = State.init.contacts ∧
        (createEvent sampleOracle State.init scenarioEventBody).1.messageLog
          = State.init.messageLog :=
  ⟨by decide, ⟨snowDay, by decide, by decide⟩, by decide,
    (createEvent_checks_template sampleOracle State.init scenarioEventBody (str "snow-day")
      (by decide)).2 ⟨snowDay, by decide, by decide⟩⟩

/-! ## Reachable states -/

theorem forEach_events {α : Type} (f : State → α → Result) (xs : List α)
    (hf : ∀ s x, (f s x).state.events = s.events) (s : State) :
    (forEach f s xs).state.events = s.events := by
  induction xs generalizing s with
  | nil => rfl
  | cons x xs ih =>
    simp only [forEach]
    split
    · exact hf s x
    · rw [ih, hf]

theorem enqueueChannel_events (O : Oracle) (eventId : String) (template : Option Template)
    (overrides : JVal) (now : String) (recipient : Props) (s : State) (channel : JVal) :
    (enqueueChannel O eventId template overrides now recipient s channel).state.events
      = s.events := by
  unfold enqueueChannel
  split
  · split
    · rfl
    · simp only
      split <;> rfl
  · rfl

theorem enqueueMessages_events (O : Oracle) (s : State) (eventId : String)
    (recipients : List Props) (channels : JVal) (template : Option Template)
    (overrides : JVal) :
    (enqueueMessages O s eventId recipients channels template overrides).state.events
      = s.events := by
  unfold enqueueMessages
  rw [forEach_events]
  intro s r
  unfold enqueueRecipient
  split
  · exact forEach_events _ _ (fun s c => enqueueChannel_events O eventId template overrides _ r s c) s
  · rfl

theorem upsertContact_events (O : Oracle) (s s' : State) (contact : JVal) (merged : Props)
    (h : upsertContact O s contact = some (s', merged)) : s'.events = s.events := by
  unfold upsertContact at h
  cases hm : member contact "id" with
  | none => simp [hm] at h
  | some cid =>
    simp only [hm, Option.some.injEq, Prod.mk.injEq] at h
    rw [← h.1]
    simp only
    split <;> rfl

theorem importAll_events (O : Oracle) (s : State) (cs : List JVal) :
    (importAll O s cs).1.events = s.events := by
  induction cs generalizing s with
  | nil => rfl
  | cons c cs ih =>
    unfold importAll
    cases hu : upsertContact O s c with
    | none => rfl
    | some r =>
      obtain ⟨s1, merged⟩ := r
      have h1 := upsertContact_events O s s1 c merged hu
      have h2 := ih s1
      simp only
      cases hi : importAll O s1 cs with
      | mk s2 res =>
        rw [hi] at h2
        cases res <;> simp only <;> rw [← h1] <;> exact h2

theorem member_defined {body v : JVal} {k : String} (h : member body k = some v)
    (k' : String) : ∃ w, member body k' = some w := by
  cases body <;> simp_all [member]

/-- With a `templateId` the catalog holds, `createEvent` answers 201 and adds
one event with that `templateId` at the end of the registry. -/
theorem createEvent_known (O : Oracle) (s : State) (body templateId : JVal) (t : Template)
    (hm : member body "templateId" = some templateId)
    (hf : templates.find? (fun item => strictEq (str item.id) templateId) = some t) :
    ∃ e, (createEvent O s body).2 = ⟨201, Body.event e⟩ ∧ e.templateId = templateId ∧
      (createEvent O s body).1.events = s.events ++ [e] ∧
      (createEvent O s body).1.contacts = s.contacts ∧
      (createEvent O s body).1.messageLog = s.messageLog := by
  obtain ⟨audience, ha⟩ := member_defined hm "audience"
  obtain ⟨overrides, ho⟩ := member_defined hm "overrides"
  obtain ⟨scheduledFor, hs⟩ := member_defined hm "scheduledFor"
  simp only [createEvent, hm, ha, ho, hs, hf]
  exact ⟨_, rfl, rfl, by split <;> rfl, by split <;> rfl, by split <;> rfl⟩

/-- Handling a request leaves the registry as it is or adds one event at its
end, whose `templateId` the lookup of the send handler finds in the catalog. -/
theorem handle_events (O : Oracle) (s : State) (r : Request) :
    (handle O s r).1.events = s.events ∨
      ∃ e, (handle O s r).1.events = s.events ++ [e] ∧
        (templates.find? (fun item => strictEq (str item.id) e.templateId)).isSome = true := by
  cases r with
  | health => exact Or.inl rfl
  | listTemplates => exact Or.inl rfl
  | eventReport id => exact Or.inl rfl
  | recipientLogs id => exact Or.inl rfl
  | importContacts body =>
    left
    simp only [handle, importContacts]
    have h := importAll_events O s (match body with
      | arr items => items
      | _ => [])
    revert h
    cases importAll O s (match body with
      | arr items => items
      | _ => []) with
    | mk s1 res => cases res <;> exact fun h => h
  | createEvent body =>
    simp only [handle]
    cases hm : member body "templateId" with
    | none =>
      left
      have : createEvent O s body = (s, serverError) := by
        cases body <;> simp_all [member, createEvent]
      rw [this]
    | some templateId =>
      cases hf : templates.find? (fun item => strictEq (str item.id) templateId) with
      | none =>
        left
        obtain ⟨audience, ha⟩ := member_defined hm "audience"
        obtain ⟨overrides, ho⟩ := member_defined hm "overrides"
        obtain ⟨scheduledFor, hs⟩ := member_defined hm "scheduledFor"
        simp only [createEvent, hm, ha, ho, hs, hf]
      | some t =>
        right
        obtain ⟨e, _, he, hev, _, _⟩ := createEvent_known O s body templateId t hm hf
        exact ⟨e, hev, by rw [he, hf]; rfl⟩
  | sendEvent id body =>
    left
    simp only [handle, sendEvent]
    split
    · rfl
    · split
      · rfl
      · split
        · rfl
        · split
          · exact enqueueMessages_events _ _ _ _ _ _ _
          · exact enqueueMessages_events _ _ _ _ _ _ _
  | twilioCallback body =>
    left
    simp only [handle, twilioCallback]
    split
    · split <;> rfl
    · rfl
  | emailCallback body =>
    left
    simp only [handle, emailCallback]
    split
    · split <;> rfl
    · rfl

theorem run_events_known (O : Oracle) (requests : List Request) (s : State)
    (h : ∀ e ∈ s.events,
      (templates.find? (fun item => strictEq (str item.id) e.templateId)).isSome = true) :
    ∀ e ∈ (run O s requests).events,
      (templates.find? (fun item => strictEq (str item.id) e.templateId)).isSome = true := by
  induction requests generalizing s with
  | nil => exact h
  | cons r rs ih =>
    have hstep : ∀ e ∈ (handle O s r).1.events,
        (templates.find? (fun item => strictEq (str item.id) e.templateId)).isSome = true := by
      intro e he
      rcases handle_events O s r with heq | ⟨e', heq, hk⟩
      · rw [heq] at he; exact h e he
      · rw [heq, List.mem_append] at he
        rcases he with he | he
        · exact h e he
        · rw [List.mem_singleton] at he
          rw [he]; exact hk
    exact ih (handle O s r).1 hstep

/-- C19. In every state reached from the initial one by any sequence of
requests, every event of the registry has a `templateId` that is the id of a
template of the catalog, so the lookup `templates.find` of the send handler
finds a template for every event the handler can find, and `buildContent` is
called with that template, never with `undefined`. -/
theorem registry_templates_known (O : Oracle) (requests : List Request) :
    (∀ e ∈ (run O State.init requests).events,
        ∃ t ∈ templates, e.templateId = str t.id ∧
          templates.find? (fun item => strictEq (str item.id) e.templateId) = some t) ∧
      ∀ id event,
        (run O State.init requests).events.find? (fun item => item.id == id) = some event →
        ∃ t, templates.find? (fun item => strictEq (str item.id) event.templateId) = some t := by
  have hinv := run_events_known O requests State.init (by simp [State.init])
  have hall : ∀ e ∈ (run O State.init requests).events,
      ∃ t ∈ templates, e.templateId = str t.id ∧
        templates.find? (fun item => strictEq (str item.id) e.templateId) = some t := by
    intro e he
    have hs := hinv e he
    cases hf : templates.find? (fun item => strictEq (str item.id) e.templateId) with
    | none => rw [hf] at hs; simp at hs
    | some t =>
      have hp := List.find?_some hf
      exact ⟨t, List.mem_of_find?_eq_some hf, (strictEq_eq hp).symm, rfl⟩
  refine ⟨hall, ?_⟩
  intro id event hfind
  obtain ⟨t, _, _, ht⟩ := hall event (List.mem_of_find?_eq_some hfind)
  exact ⟨t, ht⟩

theorem registry_templates_known_witness :
    scenarioEvent ∈ (run sampleOracle State.init
        [Request.createEvent (obj [("templateId", str "fire-drill")]),
          Request.createEvent scenarioEventBody]).events ∧
      (run sampleOracle State.init
        [Request.createEvent (obj [("templateId", str "fire-drill")]),
          Request.createEvent scenarioEventBody]).events.length = 1 ∧
      ∃ t ∈ templates, scenarioEvent.templateId = str t.id ∧
        templates.find? (fun item => strictEq (str item.id) scenarioEvent.templateId)
          = some t :=
  ⟨by decide, by decide,
    (registry_templates_known sampleOracle
      [Request.createEvent (obj [("templateId", str "fire-drill")]),
        Request.createEvent scenarioEventBody]).1 scenarioEvent (by decide)⟩

/-! ## Reports -/


/-! ## Counts by status -/

theorem lookup_ne_none_of_mem (o : Props) (q : String × JVal) (hq : q ∈ o) :
    lookup o q.1 ≠ none := by
  induction o with
  | nil => simp at hq
  | cons r o ih =>
    obtain ⟨rk, rv⟩ := r
    rw [lookup_cons]
    rcases List.mem_cons.1 hq with h | h
    · cases hlo : lookup o q.1 with
      | some w => simp
      | none => rw [h]; simp
    · cases hlo : lookup o q.1 with
      | some w => simp
      | none => exact absurd hlo (ih h)

theorem map_replace_keys (b : Props) (k : String) (v : JVal) :
    (b.map (fun p => if p.1 = k then (k, v) else p)).map Prod.fst = b.map Prod.fst := by
  induction b with
  | nil => rfl
  | cons p b ih =>
    simp only [List.map_cons, ih]
    by_cases h : p.1 = k <;> simp [h]

theorem map_replace_absent (b : Props) (k : String) (v : JVal) (h : k ∉ b.map Prod.fst) :
    b.map (fun p => if p.1 = k then (k, v) else p) = b := by
  induction b with
  | nil => rfl
  | cons p b ih =>
    simp only [List.map_cons, List.mem_cons, not_or] at h
    simp only [List.map_cons, ih h.2]
    simp [Ne.symm h.1]

theorem SafeInt.val_ofInt_nat (n : Nat) (h : n ≤ maxSafe) : (SafeInt.ofInt (n : Int)).val = n := by
  have hn : (n : Int).natAbs ≤ maxSafe := by simpa using h
  unfold SafeInt.ofInt
  rw [dif_pos hn]

theorem SafeInt.succ_ofInt_nat (n : Nat) (h : n + 1 ≤ maxSafe) :
    (SafeInt.ofInt (n : Int)).succ = SafeInt.ofInt ((n + 1 : Nat) : Int) := by
  unfold SafeInt.succ
  rw [SafeInt.val_ofInt_nat n (by omega)]
  rfl

theorem countOf_countVal (n : Nat) (h : n ≤ maxSafe) : countOf (countVal n) = n := by
  simp [countOf, countVal, SafeInt.val_ofInt_nat n h]

theorem countSum_replace (b : Props) (k : String) (n : Nat) (hn : n + 1 ≤ maxSafe)
    (hnd : (b.map Prod.fst).Nodup) (hmem : (k, countVal n) ∈ b) :
    countSum (b.map (fun p => if p.1 = k then (k, countVal (n + 1)) else p))
      = countSum b + 1 := by
  induction b with
  | nil => simp at hmem
  | cons p b ih =>
    obtain ⟨pk, pv⟩ := p
    simp only [List.map_cons, List.nodup_cons] at hnd
    by_cases hk : pk = k
    · subst hk
      have hpv : pv = countVal n := by
        rcases List.mem_cons.1 hmem with h | h
        · exact (Prod.mk.inj h).2.symm
        · exact absurd (List.mem_map_of_mem Prod.fst h) hnd.1
      subst hpv
      rw [List.map_cons, map_replace_absent b pk _ hnd.1]
      simp only [if_true, countSum, List.map_cons, List.sum_cons,
        countOf_countVal n (by omega), countOf_countVal (n + 1) hn]
      omega
    · have hmem2 : (k, countVal n) ∈ b := by
        rcases List.mem_cons.1 hmem with h | h
        · exact absurd (Prod.mk.inj h).1.symm hk
        · exact h
      have := ih hnd.2 hmem2
      simp only [countSum] at this ⊢
      simp only [List.map_cons, hk, if_false, List.sum_cons, this]
      omega

/-- One step of the fold of `summarizeEvent` on a key that is not inherited:
a `byStatus` object that holds the counts `c` under distinct keys holds them
with one more for that key, and its counts add up to one more. -/
theorem tally_ordinary (b : Props) (c : String → Nat) (k : String)
    (hk : ordinaryKey k = true) (hnd : (b.map Prod.fst).Nodup) (hb : c k + 1 ≤ maxSafe)
    (hc : ∀ k', lookup b k' = if c k' = 0 then none else some (countVal (c k'))) :
    ∃ b', tally b k = some b' ∧ (b'.map Prod.fst).Nodup ∧
      (∀ k', lookup b' k'
        = if (c k' + if k = k' then 1 else 0) = 0 then none
          else some (countVal (c k' + if k = k' then 1 else 0))) ∧
      countSum b' = countSum b + 1 := by
  simp only [ordinaryKey, Bool.and_eq_true, decide_eq_true_eq, Option.isNone_iff_eq_none] at hk
  by_cases h0 : c k = 0
  · have hnone : lookup b k = none := by rw [hc k]; simp [h0]
    have htally : tally b k = some (b ++ [(k, num 1)]) := by
      simp [tally, hnone, hk.1, hk.2, setProp]
    have hnotin : k ∉ b.map Prod.fst := by
      intro hin
      obtain ⟨p, hp, hpk⟩ := List.mem_map.1 hin
      have := lookup_ne_none_of_mem b p hp
      rw [hpk] at this
      exact this hnone
    refine ⟨b ++ [(k, num 1)], htally, ?_, ?_, ?_⟩
    · rw [List.map_append, List.nodup_append]
      refine ⟨hnd, by simp, ?_⟩
      intro a ha hb
      simp only [List.map_cons, List.map_nil, List.mem_singleton] at hb
      exact hnotin (hb ▸ ha)
    · intro k'
      rw [lookup_append_single, hc k']
      by_cases hkk : k = k'
      · subst hkk
        simp [h0]
        rfl
      · simp [hkk]
    · simp [countSum, countOf]
      rfl
  · have hsome : lookup b k = some (countVal (c k)) := by rw [hc k]; simp [h0]
    have hsucc : orZeroPlusOne (countVal (c k)) = some (countVal (c k + 1)) := by
      simp only [countVal, orZeroPlusOne]
      rw [SafeInt.succ_ofInt_nat (c k) hb]
    have htally : tally b k = some (setProp b k (countVal (c k + 1))) := by
      simp [tally, hsome, hsucc]
    have hset : setProp b k (countVal (c k + 1))
        = b.map (fun p => if p.1 = k then (k, countVal (c k + 1)) else p) := by
      simp [setProp, hsome]
    refine ⟨setProp b k (countVal (c k + 1)), htally, ?_, ?_, ?_⟩
    · rw [hset, map_replace_keys]; exact hnd
    · intro k'
      rw [lookup_setProp, hc k']
      by_cases hkk : k = k'
      · subst hkk; simp
      · simp [hkk]
    · rw [hset]
      exact countSum_replace b k (c k) hb hnd (lookup_mem hsome)

theorem reduceLogs_counts (logs : List LogEntry) (acc : Summary) (c : String → Nat)
    (hord : ∀ l ∈ logs, ∃ k, toStr l.status = some k ∧ ordinaryKey k = true)
    (hnd : (acc.byStatus.map Prod.fst).Nodup)
    (hbound : ∀ k, c k + logs.length ≤ maxSafe)
    (hc : ∀ k, lookup acc.byStatus k = if c k = 0 then none else some (countVal (c k))) :
    ∃ S, reduceLogs acc logs = some S ∧ (S.byStatus.map Prod.fst).Nodup ∧
      (∀ k, lookup S.byStatus k
        = if c k + statusCount logs k = 0 then none
          else some (countVal (c k + statusCount logs k))) ∧
      countSum S.byStatus = countSum acc.byStatus + logs.length := by
  induction logs generalizing acc c with
  | nil => exact ⟨acc, rfl, hnd, by simpa [statusCount] using hc, by simp⟩
  | cons l ls ih =>
    obtain ⟨key, hkey, hok⟩ := hord l (List.mem_cons_self _ _)
    have hb1 : c key + 1 ≤ maxSafe := by
      have := hbound key
      simp only [List.length_cons] at this
      omega
    obtain ⟨b', ht, h1, h2, h3⟩ := tally_ordinary acc.byStatus c key hok hnd hb1 hc
    obtain ⟨S, hS, i1, i2, i3⟩ := ih
      { total := acc.total + 1, byStatus := b' }
      (fun k => c k + if key = k then 1 else 0)
      (fun x hx => hord x (List.mem_cons_of_mem _ hx)) h1
      (fun k => by
        have := hbound k
        simp only [List.length_cons] at this
        show c k + (if key = k then 1 else 0) + ls.length ≤ maxSafe
        split <;> omega)
      h2
    have hstep : summarizeStep acc l = some { total := acc.total + 1, byStatus := b' } := by
      simp [summarizeStep, hkey, ht]
    refine ⟨S, by simp [reduceLogs, hstep, hS], i1, ?_, ?_⟩
    · intro k
      rw [i2 k]
      have hcount : statusCount (l :: ls) k
          = (if key = k then 1 else 0) + statusCount ls k := by
        simp only [statusCount, List.filter_cons, hkey]
        by_cases hk : key = k
        · simp [hk]; omega
        · simp [hk]
      rw [hcount]
      have : c k + (if key = k then 1 else 0) + statusCount ls k
          = c k + ((if key = k then 1 else 0) + statusCount ls k) := by omega
      rw [this]
    · rw [i3, h3]
      simp only [List.length_cons]
      omega

/-- When every record of the event has a status that prints as a key other
than the name of a member of `Object.prototype`, and the ledger holds at most
2^53 records, `summarizeEvent` counts as intended: the keys of `byStatus` are
distinct, a key is present exactly when some record of the event has that
status and then holds their number (never zero), and the counts add up to the
total. -/
theorem summarizeEvent_counts_ordinary (messageLog : List LogEntry) (eventId : String)
    (hord : ∀ l ∈ messageLog, l.eventId = eventId →
      ∃ k, toStr l.status = some k ∧ ordinaryKey k = true)
    (hlen : messageLog.length ≤ maxSafe) :
    ∃ S, summarizeEvent messageLog eventId = some S ∧ (S.byStatus.map Prod.fst).Nodup ∧
      (∀ k, lookup S.byStatus k
        = if statusCount (messageLog.filter (fun log => log.eventId == eventId)) k = 0 then none
          else some (countVal (statusCount
            (messageLog.filter (fun log => log.eventId == eventId)) k))) ∧
      countSum S.byStatus = S.total := by
  have hord2 : ∀ l ∈ messageLog.filter (fun log => log.eventId == eventId),
      ∃ k, toStr l.status = some k ∧ ordinaryKey k = true := by
    intro l hl
    rw [List.mem_filter] at hl
    exact hord l hl.1 (by simpa using hl.2)
  have hle : (messageLog.filter (fun log => log.eventId == eventId)).length ≤ maxSafe :=
    le_trans (List.length_filter_le _ _) hlen
  obtain ⟨S, hS, h1, h2, h3⟩ := reduceLogs_counts
    (messageLog.filter (fun log => log.eventId == eventId)) { total := 0, byStatus := [] }
    (fun _ => 0) hord2 (by simp) (fun _ => by simpa using hle) (by simp [lookup])
  refine ⟨S, hS, h1, ?_, ?_⟩
  · intro k
    have := h2 k
    simpa using this
  · have ht := reduceLogs_total _ _ _ hS
    rw [ht, h3]
    simp [countSum]

/-- C20 fails on the code. In the ledger of the scenario (four records of
event `u0`), a callback sets the status of the sms record to `__proto__`, or
to `constructor`. With `__proto__` the summary has total 4 and counts that add
up to 3, the record being counted under no key; with `constructor` the value
under that key is not a count but the text of the function `Object` followed
by `1`. With the ordinary status `sent` the counts are 1 and 3, as
`summarizeEvent_counts_ordinary` shows in general. -/
theorem summary_miscounts_prototype_keys :
    summarizeEvent
        (run sampleOracle scenarioSent
          [Request.twilioCallback
            (obj [("providerMessageId", str "sms-u2"), ("status", str "__proto__")])]).messageLog
        "u0" = some { total := 4, byStatus := [("queued", num 3)] } ∧
      summarizeEvent
        (run sampleOracle scenarioSent
          [Request.twilioCallback
            (obj [("providerMessageId", str "sms-u2"), ("status", str "constructor")])]).messageLog
        "u0" = some (Summary.mk 4
          [("constructor", str "function Object() \x7b [native code] \x7d1"),
            ("queued", num 3)]) ∧
      summarizeEvent
        (run sampleOracle scenarioSent
          [Request.twilioCallback
            (obj [("providerMessageId", str "sms-u2"), ("status", str "sent")])]).messageLog
        "u0" = some { total := 4, byStatus := [("sent", num 1), ("queued", num 3)] } := by
  decide

end SchoolWire
